import Mathlib

/-
Verification of the slide-generation pipeline in script.py
(PowerPointGenerator).  The Python source is shallowly embedded:
the HTML content tree becomes an inductive type, the pptx document
becomes a list of slide records, and each method of the generator
becomes a Lean function that follows the source line by line.
-/

namespace PptGen

/-- Python str.strip() whitespace predicate (ASCII whitespace). -/
def pySpace (c : Char) : Bool :=
  c == ' ' || c == '\t' || c == '\n' || c == '\r' || c == '\x0b' || c == '\x0c'

/-- List-level model of Python str.strip(): drop whitespace from both ends. -/
def pyStripL (l : List Char) : List Char :=
  ((l.dropWhile pySpace).reverse.dropWhile pySpace).reverse

/-- Python s.strip(). -/
def pyStrip (s : String) : String := ⟨pyStripL s.data⟩

/-- Python s[:n] slicing (first n characters). -/
def pyTrunc (s : String) (n : Nat) : String := ⟨s.data.take n⟩

/-- Python s.lower() (ASCII letters). -/
def lcStr (s : String) : String := ⟨s.data.map Char.toLower⟩

/-- Case-insensitive literal match: if pat is a prefix of cs (ignoring case),
return the remainder of cs. -/
def ciDrop : List Char → List Char → Option (List Char)
  | [], cs => some cs
  | _ :: _, [] => none
  | p :: ps, c :: cs => if p.toLower == c.toLower then ciDrop ps cs else none

/-- Match of the regex `speaker notes\s*:\s*` at the head of cs
(re.IGNORECASE); on success returns the text after the match. -/
def markerTail (cs : List Char) : Option (List Char) :=
  match ciDrop "speaker notes".data cs with
  | none => none
  | some r =>
    match r.dropWhile pySpace with
    | ':' :: r2 => some (r2.dropWhile pySpace)
    | _ => none

/-- Leftmost search for the marker regex; returns (text before the match,
text after the match), mirroring re.split(..., maxsplit=1) together with
re.search. -/
def splitMarkerAux : List Char → List Char → Option (List Char × List Char)
  | acc, cs =>
    match markerTail cs with
    | some rest => some (acc.reverse, rest)
    | none =>
      match cs with
      | [] => none
      | c :: cs2 => splitMarkerAux (c :: acc) cs2

/-- re.split(r"speaker notes\s*:\s*", text, flags=IGNORECASE, maxsplit=1)
when re.search finds the pattern; none when the pattern is absent. -/
def splitMarker (s : String) : Option (String × String) :=
  match splitMarkerAux [] s.data with
  | some (a, b) => some (⟨a⟩, ⟨b⟩)
  | none => none

/-- re.sub(r"^slide\s*\d+\s*:\s*", "", text, flags=IGNORECASE):
strip a leading "Slide N:" prefix when present. -/
def stripSlideTag (s : String) : String :=
  match ciDrop "slide".data s.data with
  | none => s
  | some r =>
    let r1 := r.dropWhile pySpace
    let ds := r1.takeWhile Char.isDigit
    if ds.isEmpty then s
    else
      match (r1.dropWhile Char.isDigit).dropWhile pySpace with
      | ':' :: r3 => ⟨r3.dropWhile pySpace⟩
      | _ => s

/-- re.sub(r"^subtitle\s*:\s*", "", s, flags=IGNORECASE). -/
def stripSubtitleTag (s : String) : String :=
  match ciDrop "subtitle".data s.data with
  | none => s
  | some r =>
    match r.dropWhile pySpace with
    | ':' :: r2 => ⟨r2.dropWhile pySpace⟩
    | _ => s

/-- Does the list start with one whitespace character (regex `\s` head)? -/
def startsWS : List Char → Bool
  | c :: _ => pySpace c
  | [] => false

/-- The bullet patterns of _add_paragraph_content:
`^\s*[-•·]\s+`, `^\s*\d+\.\s+`, `^\s*[a-zA-Z]\.\s+` (re.match). -/
def bulletLike (s : String) : Bool :=
  let cs := s.data.dropWhile pySpace
  (match cs with
   | c :: rest => (c == '-' || c == '•' || c == '·') && startsWS rest
   | [] => false)
  ||
  (!(cs.takeWhile Char.isDigit).isEmpty &&
   (match cs.dropWhile Char.isDigit with
    | '.' :: r => startsWS r
    | _ => false))
  ||
  (match cs with
   | a :: '.' :: r => a.isAlpha && startsWS r
   | _ => false)

/-- Is nee a contiguous substring of hay (Python `in` on str)? -/
def startsWithL : List Char → List Char → Bool
  | [], _ => true
  | _ :: _, [] => false
  | a :: as', b :: bs => a == b && startsWithL as' bs

/-- Substring scan over the tail positions of hay. -/
def hasSubstrL (nee : List Char) : List Char → Bool
  | [] => startsWithL nee []
  | c :: cs => startsWithL nee (c :: cs) || hasSubstrL nee cs

/-- Substring search used by `"speaker notes:" in text.lower()`. -/
def hasSubstr (hay nee : String) : Bool := hasSubstrL nee.data hay.data

/-! The content tree (the parsed HTML handed to the generator as a
BeautifulSoup Tag).  A mutual inductive keeps every traversal
structurally recursive. -/

mutual

inductive Node where
  | text (s : String)
  | tag (name : String) (classes : List String) (children : NodeList)

inductive NodeList where
  | nil
  | cons (head : Node) (tail : NodeList)

end

deriving instance DecidableEq for Node, NodeList

mutual

/-- The descendant NavigableStrings of a node, in document order. -/
def Node.strs : Node → List String
  | .text s => [s]
  | .tag _ _ cs => NodeList.strs cs

def NodeList.strs : NodeList → List String
  | .nil => []
  | .cons n rest => Node.strs n ++ NodeList.strs rest

end

/-- bs4 get_text(strip=True): concatenation of the stripped descendant
strings, empty pieces skipped. -/
def getTextStrip (n : Node) : String :=
  String.join (((Node.strs n).map pyStrip).filter (fun s => s ≠ ""))

/-- bs4 get_text(" ", strip=True). -/
def getTextSpace (n : Node) : String :=
  String.intercalate " " (((Node.strs n).map pyStrip).filter (fun s => s ≠ ""))

/-- A tag found by find_all, together with its position (path of child
indices from the root) and the names of its ancestors (nearest first).
Python deduplicates by id(element); distinct paths model distinct ids. -/
structure Elem where
  path : List Nat
  name : String
  classes : List String
  children : NodeList

structure ElemC where
  elem : Elem
  ancestors : List String

def Elem.node (e : Elem) : Node := .tag e.name e.classes e.children

def elemText (e : ElemC) : String := getTextStrip e.elem.node

mutual

/-- Pre-order flattening of all descendant tags (bs4 find_all with
recursive=True, before name filtering). -/
def flattenNode (anc : List String) (path : List Nat) : Node → List ElemC
  | .text _ => []
  | .tag nm cls cs => ⟨⟨path, nm, cls, cs⟩, anc⟩ :: flattenKids (nm :: anc) path 0 cs

def flattenKids (anc : List String) (path : List Nat) (i : Nat) : NodeList → List ElemC
  | .nil => []
  | .cons n rest => flattenNode anc (path ++ [i]) n ++ flattenKids anc path (i + 1) rest

end

/-- All descendant tags of the root, in document order (the root itself is
not included, matching content_div.find_all). -/
def elementsOf (root : Node) : List ElemC :=
  match root with
  | .tag nm _ cs => flattenKids [nm] [] 0 cs
  | .text _ => []

/-- Has a decomposed element swallowed this path?  el.decompose() removes
the element and its whole subtree from the tree. -/
def isUnder (removed : List (List Nat)) (p : List Nat) : Bool :=
  removed.any (fun r => r.isPrefixOf p)

/-- find_all with a name filter, recursive=True, on a subtree (used for
tr / td / th lookups inside a table element). -/
def findAllNodes (names : List String) (n : Node) : List Node :=
  ((flattenNode [] [] n).drop 1).filterMap
    (fun e => if names.contains e.elem.name then some e.elem.node else none)

/-! The pptx side: paragraphs, slides, generator state. -/

/-- Config.max_slide_content_length. -/
def maxContentLen : Nat := 1000

/-- Config() in app.py builds the class without the dataclass decorator,
so __post_init__ never runs and Config.font_fallbacks stays None. -/
def configFontFallbacks : Option (String → String) := none

/-- _set_font_safely: the font table lookup (or, for the default branch,
the call to the commented-out _get_appropriate_font) raises, the except
branch applies the fallback Arial at size 22. -/
def setFontSafely (ftype : String) : String × Nat :=
  match configFontFallbacks with
  | some fb => (fb ftype, if ftype = "code" then 20 else 24)
  | none => ("Arial", 22)

/-- One paragraph of a text frame.  font none = template default; noBullet
models the explicit a:buNone element appended for code paragraphs. -/
structure Para where
  text : String
  level : Nat
  font : Option (String × Nat)
  noBullet : Bool

deriving Repr, DecidableEq, Inhabited

/-- The single empty paragraph a cleared python-pptx text frame holds. -/
def emptyPara : Para := { text := "", level := 0, font := none, noBullet := false }

/-- One slide: layout 0 = Title Slide, layout 1 = Title and Content.
body models the body placeholder text frame, tables the table shapes,
notes the notes text frame (a single container: assigning it replaces
the previous text). -/
structure Slide where
  layout : Nat
  title : String
  subtitle : String
  body : List Para
  tables : List (List (List String))
  notes : Option String

deriving Repr, DecidableEq, Inhabited

/-- The mutable fields of the PowerPointGenerator instance (never reset
by any method). -/
structure Gen where
  speaker_notes_txt : List (Nat × String)
  notes_seen : List (Nat × String)
  slide_count : Nat

deriving Repr, DecidableEq

/-- PowerPointGenerator.__init__. -/
def Gen.init : Gen := { speaker_notes_txt := [], notes_seen := [], slide_count := 0 }

def getSlide (slides : List Slide) (i : Nat) : Slide := slides.getD i default

def updSlide (slides : List Slide) (i : Nat) (f : Slide → Slide) : List Slide :=
  slides.set i (f (getSlide slides i))

/-! _add_code_content. -/

/-- The argument the callers pass to _add_code_content: a str from the
cm-line buffer, or the bs4 Tag itself at the pre and code dispatch. -/
inductive PyArg where
  | ofStr (s : String)
  | ofTag (n : Node)

/-- The paragraph produced for code: text truncated to
max_slide_content_length, level 0, bullets stripped (a:buNone appended),
monospace font requested from _set_font_safely. -/
def codePara (s : String) : Para :=
  { text := pyTrunc s maxContentLen, level := 0,
    font := some (setFontSafely "code"), noBullet := true }

/-- _add_code_content.  For a str: early return when the stripped text is
empty, else append the code paragraph.  For a Tag: `code_text.strip()`
resolves to a child-tag lookup instead of the str method and the call
raises; none models the raised exception (the str branch never raises). -/
def addCodeContent (body : List Para) : PyArg → Option (List Para)
  | .ofStr s => if pyStrip s = "" then some body else some (body ++ [codePara s])
  | .ofTag _ => none

/-! _process_list_recursive. -/

/-- A rendered list line: text at min(level, 4), default font. -/
def listPara (t : String) (lvl : Nat) : Para :=
  { text := t, level := min lvl 4, font := some (setFontSafely "default"),
    noBullet := false }

/-- Lines 344 - 346: if the frame holds exactly one paragraph whose text
strips to empty, remove it. -/
def dropPlaceholder (ps : List Para) : List Para :=
  match ps with
  | [p] => if pyStrip p.text = "" then [] else ps
  | _ => ps

/-- Lines 359 - 363: reuse the single empty paragraph when present,
otherwise append. -/
def addListPara (ps : List Para) (t : String) (lvl : Nat) : List Para :=
  match ps with
  | [p] => if pyStrip p.text = "" then [listPara t lvl] else ps ++ [listPara t lvl]
  | _ => ps ++ [listPara t lvl]

/-- One text part of a list item, per the loop over li.children:
a NavigableString is stripped, a non-list tag contributes
get_text(" ", strip=True), a nested ul or ol contributes nothing. -/
def childPart (c : Node) : Option String :=
  match c with
  | .text s => some (pyStrip s)
  | .tag nm _ _ => if nm = "ul" ∨ nm = "ol" then none else some (getTextSpace c)

def liParts : NodeList → List String
  | .nil => []
  | .cons c rest =>
    match childPart c with
    | some s => s :: liParts rest
    | none => liParts rest

/-- The own text of a list item: " ".join(text_parts).strip(). -/
def liOwnText (cs : NodeList) : String := pyStrip (String.intercalate " " (liParts cs))

mutual

/-- _process_list_recursive on a ul or ol element. -/
def procList (n : Node) (lvl : Nat) (ps : List Para) : List Para :=
  match n with
  | .text _ => ps
  | .tag _ _ cs => procItems cs lvl (dropPlaceholder ps)

/-- The loop over list_element.find_all("li", recursive=False). -/
def procItems (cs : NodeList) (lvl : Nat) (ps : List Para) : List Para :=
  match cs with
  | .nil => ps
  | .cons c rest => procItems rest lvl (procItem c lvl ps)

/-- One direct child: only li tags are visited. -/
def procItem (c : Node) (lvl : Nat) (ps : List Para) : List Para :=
  match c with
  | .text _ => ps
  | .tag nm _ liCs =>
    if nm = "li" then
      let t := liOwnText liCs
      procNested liCs lvl (if t ≠ "" then addListPara ps t lvl else ps)
    else ps

/-- The loop over li.find_all(["ul", "ol"], recursive=False). -/
def procNested (cs : NodeList) (lvl : Nat) (ps : List Para) : List Para :=
  match cs with
  | .nil => ps
  | .cons c rest => procNested rest lvl (procNestedOne c lvl ps)

/-- One direct child of the li: recurse into ul and ol at level + 1
(the body of _process_list_recursive inlined, dropPlaceholder first). -/
def procNestedOne (c : Node) (lvl : Nat) (ps : List Para) : List Para :=
  match c with
  | .text _ => ps
  | .tag nm _ cs2 =>
    if nm = "ul" ∨ nm = "ol" then procItems cs2 (lvl + 1) (dropPlaceholder ps) else ps

end

/-! Claim-side rendering of lists, written from the words of the spec:
a depth-first walk where each item's own text (excluding nested-list
text) becomes one paragraph at indentation min(depth, 4), an item with
empty own text produces no paragraph, and nested sub-lists are walked
at depth + 1. -/

mutual

def specItems (cs : NodeList) (depth : Nat) : List Para :=
  match cs with
  | .nil => []
  | .cons c rest => specItem c depth ++ specItems rest depth
termination_by structural cs

def specItem (c : Node) (depth : Nat) : List Para :=
  match c with
  | .text _ => []
  | .tag nm _ liCs =>
    if nm = "li" then
      (if liOwnText liCs ≠ "" then [listPara (liOwnText liCs) depth] else [])
        ++ specNested liCs depth
    else []
termination_by structural c

def specNested (cs : NodeList) (depth : Nat) : List Para :=
  match cs with
  | .nil => []
  | .cons c rest => specNestedOne c depth ++ specNested rest depth
termination_by structural cs

def specNestedOne (c : Node) (depth : Nat) : List Para :=
  match c with
  | .text _ => []
  | .tag nm _ cs2 =>
    if nm = "ul" ∨ nm = "ol" then specItems cs2 (depth + 1) else []
termination_by structural c

end

/-- Claim-side walk of a whole list element. -/
def specListRender (n : Node) (depth : Nat) : List Para :=
  match n with
  | .text _ => []
  | .tag _ _ cs => specItems cs depth

/-! _add_table_to_slide. -/

/-- table_element.find_all("tr"). -/
def trRows (t : Node) : List Node := findAllNodes ["tr"] t

/-- row.find_all(["td", "th"]). -/
def rowCells (r : Node) : List Node := findAllNodes ["td", "th"] r

/-- cell.text = cell_text[:200] with cell_text = "" past the row's cells. -/
def tableCellText (cells : List Node) (j : Nat) : String :=
  pyTrunc (match cells.get? j with
           | some c => getTextStrip c
           | none => "") 200

/-- _add_table_to_slide reduced to the grid of cell texts it writes.
none means the slide is left unmutated: the early return for an empty
row list, the ValueError max() raises when no row has a cell (caught by
the method's own handler), and the max_cols == 0 guard. -/
def addTableToSlide (t : Node) : Option (List (List String)) :=
  let rows := trRows t
  if rows.isEmpty then none
  else
    match (rows.filter (fun r => !(rowCells r).isEmpty)).map
        (fun r => (rowCells r).length) with
    | [] => none
    | c :: cs =>
      let maxCols := cs.foldl Nat.max c
      if maxCols = 0 ∨ rows.length = 0 then none
      else some (rows.map (fun r =>
        (List.range maxCols).map (fun j => tableCellText (rowCells r) j)))

/-! _add_paragraph_content (dead code in the source: the dispatch that
would call it is commented out; modelled for the record). -/

/-- _add_paragraph_content: returns the new body and the notes text frame
content of the owning slide. -/
def addParagraphContent (body : List Para) (notes : Option String) (element : Node) :
    List Para × Option String :=
  let text := getTextStrip element
  if text = "" ∨ text.length > maxContentLen then (body, notes)
  else
    let tn : String × Option String :=
      if hasSubstr (lcStr text) "speaker notes:" then
        match splitMarker text with
        | some (c, n) => (pyStrip c, some (pyStrip n))
        | none => (text, notes)
      else (text, notes)
    (body ++ [{ text := tn.1, level := if bulletLike tn.1 then 1 else 0,
                font := some (setFontSafely "default"), noBullet := false }], tn.2)

/-! The title-slide extraction scan at the top of
create_enhanced_presentation (lines 59 - 90). -/

def titleNames : List String := ["h1", "h2", "p"]

/-- The scan state: heading, subheading and speaker notes are plain
strings, "" standing for the Python falsy values None and ""; removed
collects the paths of decomposed elements; done models the break. -/
structure TScan where
  heading : String
  subheading : String
  notes : String
  removed : List (List Nat)
  done : Bool

deriving Repr, DecidableEq

/-- One iteration of the extraction loop.  The speaker-notes branch
continues without reaching the break test; the break test runs after the
heading and subheading assignments. -/
def titleStep (st : TScan) (e : ElemC) : TScan :=
  if st.done then st
  else
    let text := stripSlideTag (elemText e)
    match splitMarker text with
    | some (_, n) =>
      { st with notes := pyStrip n, removed := st.removed ++ [e.elem.path] }
    | none =>
      let st :=
        if st.heading = "" then
          { st with heading := text, removed := st.removed ++ [e.elem.path] }
        else if st.subheading = "" then
          { st with subheading := text, removed := st.removed ++ [e.elem.path] }
        else st
      if st.heading ≠ "" ∧ st.subheading ≠ "" ∧ st.notes ≠ "" then
        { st with done := true }
      else st

def titleElemsOf (root : Node) : List ElemC :=
  (elementsOf root).filter (fun e => titleNames.contains e.elem.name)

def titleScan (root : Node) : TScan :=
  (titleElemsOf root).foldl titleStep
    { heading := "", subheading := "", notes := "", removed := [], done := false }

/-! add_custom_title_slide. -/

/-- add_custom_title_slide: appends the layout-0 slide, embeds the notes
whenever speaker_notes is truthy, and records the (index + 1, stripped
text) key only when it is new and nonempty.  prs.slides.index(slide) of
the appended slide is slides.length of the extended list minus 1. -/
def addCustomTitleSlide (slides : List Slide) (g : Gen)
    (heading subheading speaker_notes : String) : List Slide × Gen :=
  let cleanSub := pyStrip (stripSubtitleTag subheading)
  let base : Slide :=
    { layout := 0, title := heading, subtitle := cleanSub, body := [],
      tables := [], notes := none }
  if speaker_notes ≠ "" then
    let slides2 := slides ++ [{ base with notes := some (pyStrip speaker_notes) }]
    let key := (slides2.length, pyStrip speaker_notes)
    let g2 :=
      if key ∉ g.notes_seen ∧ pyStrip speaker_notes ≠ "" then
        { g with notes_seen := key :: g.notes_seen,
                 speaker_notes_txt := g.speaker_notes_txt ++ [key] }
      else g
    (slides2, { g2 with slide_count := g2.slide_count + 1 })
  else
    (slides ++ [base], { g with slide_count := g.slide_count + 1 })

/-! _process_content_elements. -/

def bodyNames : List String :=
  ["h1", "h2", "h3", "h4", "h5", "h6", "p", "ul", "ol", "table", "pre", "code",
   "blockquote", "img", "span", "div"]

def headingNames : List String := ["h1", "h2", "h3", "h4", "h5", "h6"]

/-- The loop state of _process_content_elements: the document slides, the
generator fields, the current slide (an index), and the cm-line buffer. -/
structure PState where
  slides : List Slide
  gen : Gen
  current : Option Nat
  buffer : List String

deriving Repr, DecidableEq

/-- _add_content_slide: layout-1 slide, cleaned title truncated at 100
characters with an ellipsis, cleared body frame (one empty paragraph). -/
def addContentSlide (slides : List Slide) (g : Gen) (title : String) :
    List Slide × Gen × Nat :=
  let ct := stripSlideTag title
  let t := if ct.length > 100 then pyTrunc ct 100 ++ "..." else ct
  let s : Slide :=
    { layout := 1, title := t, subtitle := "", body := [emptyPara], tables := [],
      notes := none }
  (slides ++ [s], { g with slide_count := g.slide_count + 1 }, slides.length)

/-- _ensure_slide. -/
def ensureSlide (st : PState) (defaultTitle : String) : PState × Nat :=
  match st.current with
  | some i => (st, i)
  | none =>
    let r := addContentSlide st.slides st.gen defaultTitle
    ({ st with slides := r.1, gen := r.2.1, current := some r.2.2 }, r.2.2)

/-- Lines 196 - 199: flush the buffered cm-lines as one code block. -/
def flushCode (st : PState) : PState :=
  match st.buffer with
  | [] => st
  | buf =>
    let r := ensureSlide st "Content"
    let joined := String.intercalate "\n" buf
    { r.1 with
      slides := updSlide r.1.slides r.2
        (fun s => { s with body := (addCodeContent s.body (.ofStr joined)).getD s.body }),
      buffer := [] }

/-- One iteration of the element loop of _process_content_elements,
in source order: speaker-notes branch, cm-line buffering, buffer flush,
nesting skips, then the dispatch on the element name.  The paragraph
branch of the dispatch is commented out in the source, so p, blockquote,
span, img and plain div elements reach no renderer.  At the pre and code
dispatch _add_code_content receives the Tag and raises; the per-element
handler catches it, keeping the slide _ensure_slide just made. -/
def bodyStep (st : PState) (e : ElemC) : PState :=
  let text := elemText e
  match splitMarker text with
  | some (_, notesPart) =>
    (match st.current with
     | none => st
     | some i =>
       let np := pyStrip notesPart
       let key := (st.gen.slide_count, np)
       if np ≠ "" ∧ key ∉ st.gen.notes_seen then
         let g2 : Gen :=
           { st.gen with
             notes_seen := key :: st.gen.notes_seen
             speaker_notes_txt := st.gen.speaker_notes_txt ++ [key] }
         { st with
           gen := g2
           slides := updSlide st.slides i (fun s => { s with notes := some np }) }
       else st)
  | none =>
    if e.elem.name = "div" ∧ e.elem.classes.contains "cm-line" then
      { st with buffer := if text ≠ "" then st.buffer ++ [text] else st.buffer }
    else
      let st := flushCode st
      if (e.elem.name = "p" ∨ e.elem.name = "span") ∧
          e.ancestors.any (fun a => a == "ul" || a == "ol" || a == "li") then st
      else if e.elem.name = "p" ∧ e.ancestors.contains "li" then st
      else if e.elem.name = "span" ∧
          (e.ancestors.contains "p" ∨ e.ancestors.contains "li") then st
      else if e.elem.name = "code" ∧ e.ancestors.contains "pre" then st
      else if headingNames.contains e.elem.name then
        let r := addContentSlide st.slides st.gen text
        { st with slides := r.1, gen := r.2.1, current := some r.2.2 }
      else if (e.elem.name = "ol" ∨ e.elem.name = "ul") ∧
          ¬ e.ancestors.any (fun a => a == "ul" || a == "ol") then
        let r := ensureSlide st "List"
        { r.1 with
          slides := updSlide r.1.slides r.2
            (fun s => { s with body := procList e.elem.node 0 s.body }) }
      else if e.elem.name = "table" then
        let r := ensureSlide st "Content"
        match addTableToSlide e.elem.node with
        | some tbl =>
          { r.1 with
            slides := updSlide r.1.slides r.2
              (fun s => { s with tables := s.tables ++ [tbl] }) }
        | none => r.1
      else if e.elem.name = "pre" ∨ e.elem.name = "code" then
        let r := ensureSlide st "Code"
        match addCodeContent (getSlide r.1.slides r.2).body (.ofTag e.elem.node) with
        | some b =>
          { r.1 with slides := updSlide r.1.slides r.2 (fun s => { s with body := b }) }
        | none => r.1
      else st

/-- The elements the body pass iterates over: name-filtered find_all on
the tree left after the title scan decomposed its picks. -/
def bodyElemsOf (removed : List (List Nat)) (root : Node) : List ElemC :=
  (elementsOf root).filter
    (fun e => bodyNames.contains e.elem.name && !(isUnder removed e.elem.path))

/-- _process_content_elements: the loop.  A cm-line buffer still pending
when the loop ends is dropped: the only flush points are inside the loop. -/
def processContentElements (st : PState) (elems : List ElemC) : PState :=
  elems.foldl bodyStep st

/-- _add_fallback_slide. -/
def addFallbackSlide (slides : List Slide) (g : Gen) (title content : String) :
    List Slide × Gen :=
  (slides ++ [{ layout := 1, title := title, subtitle := "",
                body := [{ text := content, level := 0, font := none, noBullet := false }],
                tables := [], notes := none }],
   { g with slide_count := g.slide_count + 1 })

/-! _save_presentation and the artifact on disk. -/

/-- How the persistence step can go: clean, failing before the target file
is created (permission denied, the disk-space guard), or failing while
prs.save is already writing the zip to the final path. -/
inductive SaveFault where
  | ok
  | beforeOpen
  | midWrite

deriving Repr, DecidableEq

/-- The artifact at the target output path after the run. -/
inductive Fs where
  | absent
  | halfWritten
  | complete

deriving Repr, DecidableEq

/-- _save_presentation writes straight to the final path (no temporary
file, no cleanup): a mid-write failure leaves the partial bytes behind. -/
def savePresentation (f : SaveFault) : Fs × Option String :=
  match f with
  | .ok => (.complete, none)
  | .beforeOpen => (.absent, some "IOError")
  | .midWrite => (.halfWritten, some "IOError")

structure Env where
  saveFault : SaveFault

deriving Repr, DecidableEq

def Env.noFault : Env := { saveFault := .ok }

/-- One iteration of the cleanup loop of _save_speaker_notes_textfile:
strip the note again, keep it only when nonempty and its key unseen. -/
def cleanStep (acc : List (Nat × String) × List (Nat × String)) (kv : Nat × String) :
    List (Nat × String) × List (Nat × String) :=
  let key := (kv.1, pyStrip kv.2)
  if pyStrip kv.2 ≠ "" ∧ key ∉ acc.2 then (acc.1 ++ [key], key :: acc.2) else acc

/-- _save_speaker_notes_textfile: strip each note again, drop empties and
repeated (slide, note) keys, keep order. -/
def cleanNotes (l : List (Nat × String)) : List (Nat × String) :=
  (l.foldl cleanStep ([], [])).1

/-- The outcome of one create_enhanced_presentation call: the returned
boolean, the slides of the document it built, the generator state after
the call, the artifact at the output path, and the notes transcript file
(none when not written). -/
structure RunResult where
  ok : Bool
  slides : List Slide
  gen : Gen
  fs : Fs
  transcript : Option (List (Nat × String))

deriving Repr, DecidableEq

/-- The in-memory construction phase of create_enhanced_presentation:
title extraction scan, the always-added title slide (into the fresh
empty presentation), then the body pass over the remaining elements. -/
def buildState (g0 : Gen) (root : Node) : PState :=
  let ts := titleScan root
  let r1 := addCustomTitleSlide [] g0
    (if ts.heading = "" then " " else ts.heading)
    (if ts.subheading = "" then " " else ts.subheading)
    ts.notes
  processContentElements
    { slides := r1.1, gen := r1.2, current := none, buffer := [] }
    (bodyElemsOf ts.removed root)

/-- The document and generator after the fallback guard (which a
successful add_custom_title_slide makes unreachable: the slide list is
already nonempty). -/
def buildDoc (g0 : Gen) (root : Node) : List Slide × Gen :=
  let stF := buildState g0 root
  if stF.slides.length = 0 then
    addFallbackSlide stF.slides stF.gen "No Content Found"
      "The canvas appears to be empty or could not be processed."
  else (stF.slides, stF.gen)

/-- create_enhanced_presentation: the construction phase, persistence,
and the transcript file; the top-level except turns any raised error
into the return value False (the unused title parameter of the Python
signature is omitted: the body never reads it). -/
def createEnhancedPresentation (env : Env) (g0 : Gen) (root : Node) : RunResult :=
  let r2 := buildDoc g0 root
  match savePresentation env.saveFault with
  | (fs, some _) =>
    { ok := false, slides := r2.1, gen := r2.2, fs := fs, transcript := none }
  | (fs, none) =>
    { ok := true, slides := r2.1, gen := r2.2, fs := fs,
      transcript :=
        if r2.2.speaker_notes_txt ≠ [] then some (cleanNotes r2.2.speaker_notes_txt)
        else none }

/-! Concrete trees for evaluation. -/

def NodeList.ofList : List Node → NodeList
  | [] => .nil
  | n :: ns => .cons n (NodeList.ofList ns)

/-- A tag with no class attribute. -/
def tagL (nm : String) (cs : List Node) : Node := .tag nm [] (NodeList.ofList cs)

/-- A paragraph holding one string. -/
def ptext (s : String) : Node := tagL "p" [.text s]

/-- An input with no recognized content nodes at all. -/
def emptyRoot : Node := tagL "body" []

/-- Heading, subheading, a first notes marker (consumed by the title
scan), a plain paragraph (ends the scan), and a second marker carrying
body text before it. -/
def markerRoot : Node := tagL "body"
  [tagL "h1" [.text "Title"], tagL "h2" [.text "Sub"],
   ptext "speaker notes: note1", ptext "Hello",
   ptext "Body text speaker notes: note2"]

/-- The spec round-trip shape: heading with Slide prefix, a bullet list,
a trailing notes marker. -/
def roundTripRoot : Node := tagL "body"
  [tagL "h1" [.text "Slide 1: Intro to Soldering"],
   tagL "ul" [tagL "li" [.text "Use flux"], tagL "li" [.text "Tin the tip"]],
   ptext "speaker notes: Remember PPE"]

/-- A pre code block after the title material. -/
def preRoot : Node := tagL "body"
  [tagL "h1" [.text "T"], tagL "h2" [.text "S"], tagL "pre" [.text "print(42)"]]

/-- A heading - subheading - heading - paragraph document: "Hello" is a
standalone paragraph while a content slide is open. -/
def paraRoot : Node := tagL "body"
  [tagL "h1" [.text "A"], tagL "h2" [.text "B"], ptext "x",
   tagL "h1" [.text "C"], ptext "Hello"]

/-- A title triple whose notes marker repeats across two builds on the
same generator instance. -/
def twoBuildRoot : Node := tagL "body"
  [tagL "h1" [.text "A"], tagL "h2" [.text "B"], ptext "speaker notes: N"]

/-- A 1500-character code payload. -/
def longCode : String := ⟨List.replicate 1500 'a'⟩

/-- The witness table: a 3-column header row and a shorter data row. -/
def tableW : Node := tagL "table"
  [tagL "tr" [tagL "th" [.text "A"], tagL "th" [.text "B"], tagL "th" [.text "C"]],
   tagL "tr" [tagL "td" [.text "1"]]]

/-- Does the list hold exactly one paragraph whose text strips to empty
(the python-pptx placeholder shape _process_list_recursive removes)? -/
def isSingleEmpty : List Para → Bool
  | [p] => pyStrip p.text == ""
  | _ => false

/-- The generator-state invariant maintained inside one document build
from a fresh instance: the transcript list has no repeated pair, every
recorded pair is in the seen-set, and every recorded note is nonempty
and already stripped. -/
def GoodGen (g : Gen) : Prop :=
  g.speaker_notes_txt.Nodup
  ∧ (∀ k ∈ g.speaker_notes_txt, k ∈ g.notes_seen)
  ∧ (∀ k ∈ g.speaker_notes_txt, k.2 ≠ "" ∧ pyStrip k.2 = k.2)

/-- Monotone evolution of the generator instance fields: the transcript
list only grows at the end, the seen-set only grows, the slide counter
never decreases. -/
def GenExt (g g2 : Gen) : Prop :=
  (∃ t, g2.speaker_notes_txt = g.speaker_notes_txt ++ t)
  ∧ (∀ k ∈ g.notes_seen, k ∈ g2.notes_seen)
  ∧ g.slide_count ≤ g2.slide_count

/-- Witness state: one open content slide, counter at 2. -/
def st0W : PState :=
  { slides := [{ layout := 1, title := "Content", subtitle := "", body := [emptyPara],
                 tables := [], notes := none }],
    gen := { speaker_notes_txt := [], notes_seen := [], slide_count := 2 },
    current := some 0, buffer := [] }

/-- Witness element: a paragraph carrying a speaker-notes marker. -/
def e0W : ElemC :=
  { elem := { path := [3], name := "p", classes := [],
              children := NodeList.ofList [.text "x speaker notes: y"] },
    ancestors := ["body"] }

/-- Witness state for the repeated-pair drop: the key (2, "y") is already
in the seen set. -/
def st1W : PState :=
  { slides := [{ layout := 1, title := "Content", subtitle := "", body := [emptyPara],
                 tables := [], notes := some "y" }],
    gen := { speaker_notes_txt := [(2, "y")], notes_seen := [(2, "y")], slide_count := 2 },
    current := some 0, buffer := [] }

/-- Witness element: a plain paragraph with no marker. -/
def e1W : ElemC :=
  { elem := { path := [0], name := "p", classes := [],
              children := NodeList.ofList [.text "Hello"] },
    ancestors := ["body"] }

/-- The six-levels-deep list, innermost item first. -/
def deep6 : Node := tagL "li" [.text "f"]

def deep5 : Node := tagL "li" [.text "e", tagL "ul" [deep6]]

def deep4 : Node := tagL "li" [.text "d", tagL "ul" [deep5]]

def deep3 : Node := tagL "li" [.text "c", tagL "ul" [deep4]]

def deep2 : Node := tagL "li" [.text "b", tagL "ul" [deep3]]

def deep1 : Node := tagL "li" [.text "a", tagL "ul" [deep2]]

/-- The children of a list nested six levels deep. -/
def deepKids : NodeList := NodeList.ofList [deep1]

/-! Sanity evaluations of the embedding on concrete inputs. -/

example : pyStrip "  ab c \n" = "ab c" := by decide

example : pyTrunc "hello" 3 = "hel" := by decide

example : splitMarker "Body text Speaker Notes:  remember PPE" =
    some ("Body text ", "remember PPE") := by decide

example : splitMarker "no marker here" = none := by decide

example : stripSlideTag "Slide 3: Intro" = "Intro" := by decide

example : stripSlideTag "Slides 3: Intro" = "Slides 3: Intro" := by decide

example : stripSubtitleTag "Subtitle: Basics" = "Basics" := by decide

example : bulletLike "- item" = true := by decide

example : bulletLike "12. item" = true := by decide

example : bulletLike "b. item" = true := by decide

example : bulletLike "plain text" = false := by decide

example : hasSubstr (lcStr "My Speaker notes: x") "speaker notes:" = true := by decide

example :
    getTextStrip (.tag "p" [] (.cons (.text "  a ") (.cons (.text " b ") .nil)))
      = "ab" := by decide

example :
    (elementsOf (.tag "body" []
      (.cons (.tag "h1" [] (.cons (.text "T") .nil))
        (.cons (.tag "ul" [] (.cons (.tag "li" [] (.cons (.text "x") .nil)) .nil))
          .nil)))).map (fun e => e.elem.name) = ["h1", "ul", "li"] := by decide

example :
    (elementsOf (.tag "body" []
      (.cons (.tag "ul" [] (.cons (.tag "li" [] (.cons (.text "x") .nil)) .nil))
        .nil))).map (fun e => e.ancestors) = [["body"], ["ul", "body"]] := by decide

/-- _process_list_recursive applied to a nested list is its inlined form. -/
theorem procNestedOne_eq_procList (nm : String) (cls : List String) (cs2 : NodeList)
    (lvl : Nat) (ps : List Para) (h : nm = "ul" ∨ nm = "ol") :
    procNestedOne (.tag nm cls cs2) lvl ps = procList (.tag nm cls cs2) (lvl + 1) ps := by
  simp [procNestedOne, procList, h]

example :
    procList (.tag "ul" []
      (.cons (.tag "li" [] (.cons (.text "a")
        (.cons (.tag "ul" [] (.cons (.tag "li" [] (.cons (.text "b") .nil)) .nil))
          .nil))) .nil)) 0 [emptyPara]
    = [listPara "a" 0, listPara "b" 1] := by decide

example :
    addTableToSlide (.tag "table" []
      (.cons (.tag "tr" [] (.cons (.tag "th" [] (.cons (.text "A") .nil))
        (.cons (.tag "th" [] (.cons (.text "B") .nil)) .nil)))
      (.cons (.tag "tr" [] (.cons (.tag "td" [] (.cons (.text "1") .nil)) .nil))
        .nil)))
    = some [["A", "B"], ["1", ""]] := by decide

example : addTableToSlide (.tag "table" [] .nil) = none := by decide

example :
    addTableToSlide (.tag "table" [] (.cons (.tag "tr" [] .nil) .nil)) = none := by
  decide

example :
    createEnhancedPresentation Env.noFault Gen.init emptyRoot =
      { ok := true,
        slides := [{ layout := 0, title := " ", subtitle := "", body := [],
                     tables := [], notes := none }],
        gen := { speaker_notes_txt := [], notes_seen := [], slide_count := 1 },
        fs := .complete, transcript := none } := by decide

example :
    (createEnhancedPresentation Env.noFault Gen.init markerRoot).slides =
      [{ layout := 0, title := "Title", subtitle := "Sub", body := [],
         tables := [], notes := some "note1" }] := by decide

example :
    (createEnhancedPresentation Env.noFault Gen.init markerRoot).gen.speaker_notes_txt
      = [(1, "note1")] := by decide

example :
    (createEnhancedPresentation Env.noFault Gen.init roundTripRoot).slides =
      [{ layout := 0, title := "Intro to Soldering", subtitle := "", body := [],
         tables := [], notes := some "Remember PPE" },
       { layout := 1, title := "List", subtitle := "",
         body := [listPara "Use flux" 0, listPara "Tin the tip" 0],
         tables := [], notes := none }] := by decide

example :
    (createEnhancedPresentation Env.noFault Gen.init preRoot).slides =
      [{ layout := 0, title := "T", subtitle := "S", body := [], tables := [],
         notes := none },
       { layout := 1, title := "Code", subtitle := "", body := [emptyPara],
         tables := [], notes := none }] := by decide

/-! Supporting lemmas. -/

theorem dropWhile_head_false {α} (p : α → Bool) :
    ∀ (l : List α) (c : α) (t : List α), l.dropWhile p = c :: t → p c = false := by
  intro l
  induction l with
  | nil => intro c t h; simp at h
  | cons a as ih =>
    intro c t h
    rw [List.dropWhile_cons] at h
    cases hp : p a with
    | false =>
      rw [hp] at h
      simp only [if_neg Bool.false_ne_true, List.cons.injEq] at h
      rw [← h.1]; exact hp
    | true =>
      rw [hp, if_pos rfl] at h
      exact ih c t h

theorem dropWhile_eq_self {α} (p : α → Bool) (l : List α)
    (h : ∀ c t, l = c :: t → p c = false) : l.dropWhile p = l := by
  cases l with
  | nil => rfl
  | cons a t => rw [List.dropWhile_cons, h a t rfl]; simp

theorem dropWhile_idem {α} (p : α → Bool) (l : List α) :
    (l.dropWhile p).dropWhile p = l.dropWhile p := by
  apply dropWhile_eq_self
  intro c t h
  exact dropWhile_head_false p l c t h

theorem pyStripL_head_false (l : List Char) (c : Char) (t : List Char)
    (h : pyStripL l = c :: t) : pySpace c = false := by
  have hsuffix : (l.dropWhile pySpace).reverse.dropWhile pySpace
      <:+ (l.dropWhile pySpace).reverse := List.dropWhile_suffix pySpace
  have hpre : pyStripL l <+: l.dropWhile pySpace := by
    have := List.reverse_prefix.mpr hsuffix
    simpa [pyStripL] using this
  obtain ⟨r, hr⟩ := hpre
  rw [h] at hr
  exact dropWhile_head_false pySpace l c (t ++ r) (by rw [← hr]; simp)

theorem pyStripL_idem (l : List Char) : pyStripL (pyStripL l) = pyStripL l := by
  have hA : (pyStripL l).dropWhile pySpace = pyStripL l :=
    dropWhile_eq_self pySpace (pyStripL l) (fun c t h => pyStripL_head_false l c t h)
  show ((((pyStripL l).dropWhile pySpace).reverse).dropWhile pySpace).reverse = pyStripL l
  rw [hA]
  show (((((l.dropWhile pySpace).reverse.dropWhile pySpace).reverse).reverse).dropWhile
      pySpace).reverse = pyStripL l
  rw [List.reverse_reverse, dropWhile_idem]
  rfl

theorem pyStrip_idem (s : String) : pyStrip (pyStrip s) = pyStrip s :=
  congrArg String.mk (pyStripL_idem s.data)

theorem pyTrunc_length_le (s : String) (n : Nat) : (pyTrunc s n).length ≤ n := by
  show (s.data.take n).length ≤ n
  exact List.length_take_le n s.data

theorem set_getD_self {α} (d : α) : ∀ (l : List α) (i : Nat), l.set i (l.getD i d) = l := by
  intro l
  induction l with
  | nil => intro i; rfl
  | cons a as ih =>
    intro i
    cases i with
    | zero => rfl
    | succ j => simpa using ih j

theorem updSlide_map {β} (f : Slide → β) (h : Slide → Slide)
    (hf : ∀ s, f (h s) = f s) :
    ∀ (sl : List Slide) (i : Nat), (updSlide sl i h).map f = sl.map f := by
  intro sl
  induction sl with
  | nil => intro i; rfl
  | cons a as ih =>
    intro i
    cases i with
    | zero => simp [updSlide, getSlide, hf]
    | succ j =>
      have : updSlide (a :: as) (j + 1) h = a :: updSlide as j h := by
        simp [updSlide, getSlide]
      rw [this]
      simp [ih j]

theorem getD_map_lt {α β} (f : α → β) (d : α) (d2 : β) :
    ∀ (l : List α) (i : Nat), i < l.length → (l.map f).getD i d2 = f (l.getD i d) := by
  intro l
  induction l with
  | nil => intro i h; simp at h
  | cons a as ih =>
    intro i h
    cases i with
    | zero => rfl
    | succ k => exact ih k (Nat.lt_of_succ_lt_succ h)

theorem getD_range_lt (n i d : Nat) (h : i < n) : (List.range n).getD i d = i := by
  rw [List.getD_eq_getElem?_getD, List.getElem?_range h]
  rfl

theorem foldl_max_ge_init : ∀ (l : List Nat) (c : Nat), c ≤ l.foldl Nat.max c := by
  intro l
  induction l with
  | nil => intro c; simp
  | cons a as ih =>
    intro c
    calc c ≤ Nat.max c a := Nat.le_max_left c a
    _ ≤ as.foldl Nat.max (Nat.max c a) := ih (Nat.max c a)

theorem foldl_max_ge_mem : ∀ (l : List Nat) (c a : Nat), a ∈ l → a ≤ l.foldl Nat.max c := by
  intro l
  induction l with
  | nil => intro c a h; simp at h
  | cons b bs ih =>
    intro c a h
    rcases List.mem_cons.mp h with h1 | h2
    · subst h1
      calc a ≤ Nat.max c a := Nat.le_max_right c a
      _ ≤ bs.foldl Nat.max (Nat.max c a) := foldl_max_ge_init bs (Nat.max c a)
    · exact ih (Nat.max c b) a h2

theorem foldl_max_mem : ∀ (l : List Nat) (c : Nat),
    l.foldl Nat.max c = c ∨ l.foldl Nat.max c ∈ l := by
  intro l
  induction l with
  | nil => intro c; left; rfl
  | cons b bs ih =>
    intro c
    rcases ih (Nat.max c b) with h | h
    · rcases Nat.le_total c b with hcb | hbc
      · right
        have hm : Nat.max c b = b := Nat.max_eq_right hcb
        rw [List.foldl_cons, h, hm]
        exact List.mem_cons_self b bs
      · left
        have hm : Nat.max c b = c := Nat.max_eq_left hbc
        rw [List.foldl_cons, h, hm]
    · right; exact List.mem_cons_of_mem b h

theorem filter_nil_of_imp {α} (p q : α → Bool) (l : List α)
    (hpq : ∀ a, q a = true → p a = true) (h : l.filter p = []) : l.filter q = [] := by
  rw [List.filter_eq_nil] at h ⊢
  intro a ha hq
  exact h a ha (hpq a hq)

/-! Claim theorems. -/

/-- C9.  For every input tree, generator state and fault scenario,
create_enhanced_presentation returns a boolean decided purely by whether
persistence succeeded: the whole pipeline body sits in the top-level
try, any raised error is caught there and reported as False, and no
exception crosses the boundary (the function is total). -/
theorem c9_top_level_boundary (env : Env) (g0 : Gen) (root : Node) :
    (createEnhancedPresentation env g0 root).ok = decide (env.saveFault = SaveFault.ok) := by
  cases env with
  | mk f => cases f <;> rfl

/-- C8 counterexample.  A run whose persistence step fails mid-write
returns False but leaves the half-written artifact at the target path:
the claimed atomicity (temporary location or cleanup of partial output)
does not exist in the code. -/
theorem c8_no_atomicity_counterexample :
    (createEnhancedPresentation { saveFault := SaveFault.midWrite } Gen.init emptyRoot).ok
        = false
    ∧ (createEnhancedPresentation { saveFault := SaveFault.midWrite } Gen.init emptyRoot).fs
        = Fs.halfWritten := by
  exact ⟨rfl, rfl⟩

/-- C8 amended.  A failing run returns False, and the artifact state is
exactly what the direct write to the final path produces: nothing when
the failure precedes file creation, a partial artifact when prs.save
fails mid-write (no temporary location, no cleanup on failure), a
complete artifact exactly when persistence succeeds. -/
theorem c8_no_atomicity_amended (env : Env) (g0 : Gen) (root : Node) :
    (env.saveFault = SaveFault.ok →
      (createEnhancedPresentation env g0 root).fs = Fs.complete
      ∧ (createEnhancedPresentation env g0 root).ok = true)
    ∧ (env.saveFault = SaveFault.beforeOpen →
      (createEnhancedPresentation env g0 root).fs = Fs.absent
      ∧ (createEnhancedPresentation env g0 root).ok = false)
    ∧ (env.saveFault = SaveFault.midWrite →
      (createEnhancedPresentation env g0 root).fs = Fs.halfWritten
      ∧ (createEnhancedPresentation env g0 root).ok = false) := by
  cases env with
  | mk f =>
    cases f <;>
      exact ⟨fun h => by first | exact ⟨rfl, rfl⟩ | exact SaveFault.noConfusion h,
             fun h => by first | exact ⟨rfl, rfl⟩ | exact SaveFault.noConfusion h,
             fun h => by first | exact ⟨rfl, rfl⟩ | exact SaveFault.noConfusion h⟩

/-- C8 witness for the amended theorem, at the mid-write fault. -/
theorem c8_no_atomicity_amended_witness :
    ({ saveFault := SaveFault.midWrite } : Env).saveFault = SaveFault.midWrite
    ∧ ((createEnhancedPresentation { saveFault := SaveFault.midWrite } Gen.init
          emptyRoot).fs = Fs.halfWritten
      ∧ (createEnhancedPresentation { saveFault := SaveFault.midWrite } Gen.init
          emptyRoot).ok = false) :=
  ⟨rfl, (c8_no_atomicity_amended { saveFault := SaveFault.midWrite } Gen.init
      emptyRoot).2.2 rfl⟩

/-- C1 counterexample.  On a tree with zero recognized content nodes the
output document holds exactly one slide, but it is the synthesized
title slide with the blank placeholder title " ", not the fallback
slide with the fixed "No Content Found" message: add_custom_title_slide
always runs first, so the slide list is never empty when the fallback
guard is reached. -/
theorem c1_fallback_counterexample :
    (createEnhancedPresentation Env.noFault Gen.init emptyRoot).slides =
      [{ layout := 0, title := " ", subtitle := "", body := [], tables := [],
         notes := none }]
    ∧ (createEnhancedPresentation Env.noFault Gen.init emptyRoot).transcript = none
    ∧ (" " : String) ≠ "No Content Found" := by
  refine ⟨rfl, rfl, by decide⟩

/-- C1 amended.  For every input tree with zero recognized content nodes,
the pipeline produces exactly one slide — the synthesized title slide
with placeholder title " " and empty subtitle, not the fallback slide —
and the speaker-notes transcript is empty (no transcript file is
written). -/
theorem c1_fallback_amended (root : Node)
    (h : (elementsOf root).filter (fun e => bodyNames.contains e.elem.name) = []) :
    createEnhancedPresentation Env.noFault Gen.init root =
      { ok := true,
        slides := [{ layout := 0, title := " ", subtitle := "", body := [],
                     tables := [], notes := none }],
        gen := { speaker_notes_txt := [], notes_seen := [], slide_count := 1 },
        fs := Fs.complete, transcript := none } := by
  have hT : titleElemsOf root = [] := by
    apply filter_nil_of_imp _ _ _ _ h
    intro a ha
    have hmem : a.elem.name ∈ titleNames := List.mem_of_elem_eq_true ha
    simp only [titleNames, List.mem_cons, List.not_mem_nil, or_false] at hmem
    rcases hmem with h1 | h1 | h1 <;> rw [h1] <;> decide
  have hT2 : titleScan root =
      { heading := "", subheading := "", notes := "", removed := [], done := false } := by
    unfold titleScan
    rw [hT]
    rfl
  have hB : bodyElemsOf [] root = [] := by
    unfold bodyElemsOf
    apply filter_nil_of_imp _ _ _ _ h
    intro a ha
    simp only [Bool.and_eq_true] at ha
    exact ha.1
  have hBuild : buildState Gen.init root =
      { slides := [{ layout := 0, title := " ", subtitle := "", body := [],
                     tables := [], notes := none }],
        gen := { speaker_notes_txt := [], notes_seen := [], slide_count := 1 },
        current := none, buffer := [] } := by
    simp only [buildState, hT2]
    rw [hB]
    rfl
  simp only [createEnhancedPresentation, buildDoc, hBuild]
  rfl

/-- C1 witness for the amended theorem, at the empty tree. -/
theorem c1_fallback_amended_witness :
    (elementsOf emptyRoot).filter (fun e => bodyNames.contains e.elem.name) = []
    ∧ createEnhancedPresentation Env.noFault Gen.init emptyRoot =
      { ok := true,
        slides := [{ layout := 0, title := " ", subtitle := "", body := [],
                     tables := [], notes := none }],
        gen := { speaker_notes_txt := [], notes_seen := [], slide_count := 1 },
        fs := Fs.complete, transcript := none } :=
  ⟨rfl, c1_fallback_amended emptyRoot rfl⟩

/-- Shared helper: an element whose text carries the marker never
changes any slide body (the marker branch either leaves the state alone
or updates only the notes of the open slide). -/
theorem marker_step_bodies (st : PState) (e : ElemC) (c n : String)
    (hm : splitMarker (elemText e) = some (c, n)) :
    (bodyStep st e).slides.map Slide.body = st.slides.map Slide.body := by
  simp only [bodyStep, hm]
  cases hc : st.current with
  | none => rfl
  | some i =>
    by_cases hcond : pyStrip n ≠ "" ∧ (st.gen.slide_count, pyStrip n) ∉ st.gen.notes_seen
    · simp only [if_pos hcond]
      exact updSlide_map Slide.body (fun s => { s with notes := some (pyStrip n) })
        (fun s => rfl) st.slides i
    · simp only [if_neg hcond]

/-- C2 counterexample.  In markerRoot the element "Body text speaker
notes: note2" is met while no body slide is open: contrary to the claim,
the body text before the marker is not kept (no slide body ever holds
"Body text") and the notes after the marker are not attached to the
synthesized title slide (no slide carries "note2"); only the first
marker, consumed by the title scan, reaches the title slide. -/
theorem c2_marker_counterexample :
    (createEnhancedPresentation Env.noFault Gen.init markerRoot).slides =
      [{ layout := 0, title := "Title", subtitle := "Sub", body := [], tables := [],
         notes := some "note1" }]
    ∧ (∀ s ∈ (createEnhancedPresentation Env.noFault Gen.init markerRoot).slides,
        s.notes ≠ some "note2")
    ∧ (∀ s ∈ (createEnhancedPresentation Env.noFault Gen.init markerRoot).slides,
        ∀ p ∈ s.body, p.text ≠ "Body text")
    ∧ (createEnhancedPresentation Env.noFault Gen.init markerRoot).gen.speaker_notes_txt
        = [(1, "note1")] := by
  refine ⟨rfl, by decide, by decide, rfl⟩

/-- C2 amended.  A content element whose text matches the marker is
skipped entirely from body rendering: the text before the marker is
discarded (no slide body changes), the text after the marker is attached
as notes to the slide open at detection when one is open (subject to the
dedup check), and when no body slide is open the notes are silently
dropped rather than attached to the title slide. -/
theorem c2_marker_amended (st : PState) (e : ElemC) (c n : String)
    (hm : splitMarker (elemText e) = some (c, n)) :
    ((bodyStep st e).slides.map Slide.body = st.slides.map Slide.body)
    ∧ (st.current = none → bodyStep st e = st)
    ∧ (∀ i, st.current = some i →
        ((pyStrip n ≠ "" ∧ (st.gen.slide_count, pyStrip n) ∉ st.gen.notes_seen →
          bodyStep st e =
            { st with
              gen := { st.gen with
                       notes_seen := (st.gen.slide_count, pyStrip n) :: st.gen.notes_seen
                       speaker_notes_txt := st.gen.speaker_notes_txt
                         ++ [(st.gen.slide_count, pyStrip n)] }
              slides := updSlide st.slides i
                (fun s => { s with notes := some (pyStrip n) }) })
        ∧ (¬ (pyStrip n ≠ "" ∧ (st.gen.slide_count, pyStrip n) ∉ st.gen.notes_seen) →
          bodyStep st e = st))) := by
  have hstep : bodyStep st e =
      (match st.current with
       | none => st
       | some i =>
         let np := pyStrip n
         let key := (st.gen.slide_count, np)
         if np ≠ "" ∧ key ∉ st.gen.notes_seen then
           let g2 : Gen :=
             { st.gen with
               notes_seen := key :: st.gen.notes_seen
               speaker_notes_txt := st.gen.speaker_notes_txt ++ [key] }
           { st with
             gen := g2
             slides := updSlide st.slides i (fun s => { s with notes := some np }) }
         else st) := by
    simp only [bodyStep, hm]
  refine ⟨marker_step_bodies st e c n hm, ?_, ?_⟩
  · intro hc
    rw [hstep, hc]
  · intro i hc
    refine ⟨fun hcond => ?_, fun hcond => ?_⟩
    · rw [hstep, hc]
      simp only [if_pos hcond]
    · rw [hstep, hc]
      simp only [if_neg hcond]

/-- C2 witness for the amended theorem: a marker paragraph with an open
content slide. -/
theorem c2_marker_amended_witness :
    splitMarker (elemText e0W) = some ("x ", "y")
    ∧ (bodyStep st0W e0W).slides.map Slide.body = st0W.slides.map Slide.body :=
  ⟨by decide, (c2_marker_amended st0W e0W "x " "y" (by decide)).1⟩

/-- C7 counterexample.  In paraRoot the standalone paragraph "Hello"
(nonempty, far under the length threshold) arrives while the content
slide "C" is open, yet no slide body ever receives it: the paragraph
branch of the dispatch is commented out in the source. -/
theorem c7_paragraph_counterexample :
    (createEnhancedPresentation Env.noFault Gen.init paraRoot).slides =
      [{ layout := 0, title := "A", subtitle := "B", body := [], tables := [],
         notes := none },
       { layout := 1, title := "C", subtitle := "", body := [emptyPara], tables := [],
         notes := none }]
    ∧ (∀ s ∈ (createEnhancedPresentation Env.noFault Gen.init paraRoot).slides,
        ∀ p ∈ s.body, p.text ≠ "Hello") := by
  refine ⟨rfl, by decide⟩

/-- C7 amended.  The paragraph dispatch is disabled: a standalone
paragraph or quote node is never rendered into any slide body — a
non-marker one only triggers the pending code-buffer flush, a marker one
changes no body either — while the disabled helper
_add_paragraph_content, were it invoked on nonempty text within the
length threshold and without a marker substring, would append one
paragraph with indentation level 1 exactly when the text matches one of
the bullet-like patterns. -/
theorem c7_paragraph_amended :
    (∀ (st : PState) (e : ElemC), (e.elem.name = "p" ∨ e.elem.name = "blockquote") →
      splitMarker (elemText e) = none → bodyStep st e = flushCode st)
    ∧ (∀ (st : PState) (e : ElemC) (c n : String),
        splitMarker (elemText e) = some (c, n) →
        (bodyStep st e).slides.map Slide.body = st.slides.map Slide.body)
    ∧ (∀ (body : List Para) (notes : Option String) (el : Node),
        getTextStrip el ≠ "" → (getTextStrip el).length ≤ maxContentLen →
        hasSubstr (lcStr (getTextStrip el)) "speaker notes:" = false →
        addParagraphContent body notes el =
          (body ++ [{ text := getTextStrip el,
                      level := if bulletLike (getTextStrip el) then 1 else 0,
                      font := some (setFontSafely "default"), noBullet := false }],
           notes)) := by
  refine ⟨?_, ?_, ?_⟩
  · intro st e hname hm
    have h1 : ¬ (e.elem.name = "div" ∧ e.elem.classes.contains "cm-line" = true) := by
      rcases hname with h | h <;> rw [h] <;> exact fun hc => absurd hc.1 (by decide)
    have h4 : ¬ (e.elem.name = "span" ∧
        (e.ancestors.contains "p" = true ∨ e.ancestors.contains "li" = true)) := by
      rcases hname with h | h <;> rw [h] <;> exact fun hc => absurd hc.1 (by decide)
    have h5 : ¬ (e.elem.name = "code" ∧ e.ancestors.contains "pre" = true) := by
      rcases hname with h | h <;> rw [h] <;> exact fun hc => absurd hc.1 (by decide)
    have h6 : ¬ (headingNames.contains e.elem.name = true) := by
      rcases hname with h | h <;> rw [h] <;> decide
    have h7 : ¬ ((e.elem.name = "ol" ∨ e.elem.name = "ul") ∧
        ¬ (e.ancestors.any fun a => a == "ul" || a == "ol") = true) := by
      rcases hname with h | h <;> rw [h] <;> exact fun hc => absurd hc.1 (by decide)
    have h8 : ¬ (e.elem.name = "table") := by
      rcases hname with h | h <;> rw [h] <;> decide
    have h9 : ¬ (e.elem.name = "pre" ∨ e.elem.name = "code") := by
      rcases hname with h | h <;> rw [h] <;> decide
    simp only [bodyStep, hm, if_neg h1, if_neg h4, if_neg h5, if_neg h6, if_neg h7,
      if_neg h8, if_neg h9]
    (repeat' split) <;> rfl
  · intro st e c n hm
    exact marker_step_bodies st e c n hm
  · intro body notes el h1 h2 h3
    have hcond : ¬ (getTextStrip el = "" ∨ (getTextStrip el).length > maxContentLen) := by
      push_neg
      exact ⟨h1, by omega⟩
    simp only [addParagraphContent, if_neg hcond, h3]
    simp

/-- C7 witness for the amended theorem: the non-marker paragraph branch
and the helper on a bullet-like line. -/
theorem c7_paragraph_amended_witness :
    (splitMarker (elemText e1W) = none
      ∧ bodyStep st0W e1W = flushCode st0W)
    ∧ addParagraphContent [] none (.text "- item") =
        ([{ text := "- item", level := 1, font := some ("Arial", 22),
            noBullet := false }], none) := by
  refine ⟨⟨by decide, ?_⟩, ?_⟩
  · exact c7_paragraph_amended.1 st0W e1W (Or.inl rfl) (by decide)
  · have h := c7_paragraph_amended.2.2 [] none (.text "- item")
      (by decide) (by decide) (by decide)
    rw [h]
    rfl

set_option maxRecDepth 40000 in
/-- C6.  Evaluation at the failing input: a pre element reaches the
dispatch, _ensure_slide creates the Code slide, then _add_code_content
receives the bs4 Tag where its annotation promises a str —
code_text.strip() resolves to a child-tag lookup and the call raises,
the per-element handler swallows it, and the slide body stays the empty
placeholder: the code text is never rendered.  On the str path (the
cm-line buffer) the text is truncated to exactly 1000 characters with
the bullet stripped, but the font is the Arial fallback, not the
monospace code font: Config carries no dataclass decorator, so
__post_init__ never runs and font_fallbacks stays None. -/
theorem c6_code_bug_eval :
    ((createEnhancedPresentation Env.noFault Gen.init preRoot).slides =
      [{ layout := 0, title := "T", subtitle := "S", body := [], tables := [],
         notes := none },
       { layout := 1, title := "Code", subtitle := "", body := [emptyPara],
         tables := [], notes := none }])
    ∧ addCodeContent [] (.ofTag (tagL "pre" [.text "print(42)"])) = none
    ∧ (addCodeContent [] (.ofStr longCode) = some [codePara longCode]
       ∧ (codePara longCode).text.length = 1000
       ∧ (codePara longCode).noBullet = true
       ∧ (codePara longCode).font = some ("Arial", 22)) := by
  refine ⟨rfl, rfl, by decide, ?_, rfl, rfl⟩
  show ((⟨List.replicate 1500 'a'⟩ : String).data.take 1000).length = 1000
  simp

/-! How each operation of the body pass evolves the generator fields. -/

theorem ensureSlide_gen (st : PState) (t : String) :
    ((ensureSlide st t).1).gen.speaker_notes_txt = st.gen.speaker_notes_txt
    ∧ ((ensureSlide st t).1).gen.notes_seen = st.gen.notes_seen
    ∧ st.gen.slide_count ≤ ((ensureSlide st t).1).gen.slide_count := by
  cases hc : st.current with
  | some i => refine ⟨?_, ?_, ?_⟩ <;> simp [ensureSlide, hc]
  | none => refine ⟨?_, ?_, ?_⟩ <;> simp [ensureSlide, hc, addContentSlide]

theorem flushCode_gen (st : PState) :
    (flushCode st).gen.speaker_notes_txt = st.gen.speaker_notes_txt
    ∧ (flushCode st).gen.notes_seen = st.gen.notes_seen
    ∧ st.gen.slide_count ≤ (flushCode st).gen.slide_count := by
  cases hb : st.buffer with
  | nil => simp [flushCode, hb]
  | cons x xs =>
    have h := ensureSlide_gen st "Content"
    simp only [flushCode, hb]
    exact ⟨h.1, h.2.1, h.2.2⟩

/-- One body-pass step either leaves the transcript and seen-set alone,
or appends one new, nonempty, stripped key to both; the slide counter
never decreases. -/
theorem bodyStep_gen_shape (st : PState) (e : ElemC) :
    ((bodyStep st e).gen.speaker_notes_txt = st.gen.speaker_notes_txt
      ∧ (bodyStep st e).gen.notes_seen = st.gen.notes_seen
      ∧ st.gen.slide_count ≤ (bodyStep st e).gen.slide_count)
    ∨ (∃ k : Nat × String, k ∉ st.gen.notes_seen ∧ k.2 ≠ "" ∧ pyStrip k.2 = k.2
        ∧ (bodyStep st e).gen.speaker_notes_txt = st.gen.speaker_notes_txt ++ [k]
        ∧ (bodyStep st e).gen.notes_seen = k :: st.gen.notes_seen
        ∧ st.gen.slide_count ≤ (bodyStep st e).gen.slide_count) := by
  cases hm : splitMarker (elemText e) with
  | some p =>
    cases p with
    | mk c n =>
      simp only [bodyStep, hm]
      split
      · exact Or.inl ⟨rfl, rfl, Nat.le_refl _⟩
      · split
        · rename_i hcond
          exact Or.inr ⟨(st.gen.slide_count, pyStrip n), hcond.2, hcond.1,
            pyStrip_idem n, rfl, rfl, Nat.le_refl _⟩
        · exact Or.inl ⟨rfl, rfl, Nat.le_refl _⟩
  | none =>
    left
    have hf := flushCode_gen st
    have heL := ensureSlide_gen (flushCode st) "List"
    have heC := ensureSlide_gen (flushCode st) "Content"
    have heK := ensureSlide_gen (flushCode st) "Code"
    simp only [bodyStep, hm]
    split
    · exact ⟨rfl, rfl, Nat.le_refl _⟩
    · split
      · exact ⟨hf.1, hf.2.1, hf.2.2⟩
      · split
        · exact ⟨hf.1, hf.2.1, hf.2.2⟩
        · split
          · exact ⟨hf.1, hf.2.1, hf.2.2⟩
          · split
            · exact ⟨hf.1, hf.2.1, hf.2.2⟩
            · split
              · exact ⟨hf.1, hf.2.1, Nat.le_trans hf.2.2 (Nat.le_succ _)⟩
              · split
                · exact ⟨(heL.1).trans hf.1, (heL.2.1).trans hf.2.1,
                    Nat.le_trans hf.2.2 heL.2.2⟩
                · split
                  · split
                    · exact ⟨(heC.1).trans hf.1, (heC.2.1).trans hf.2.1,
                        Nat.le_trans hf.2.2 heC.2.2⟩
                    · exact ⟨(heC.1).trans hf.1, (heC.2.1).trans hf.2.1,
                        Nat.le_trans hf.2.2 heC.2.2⟩
                  · split
                    · split
                      · exact ⟨(heK.1).trans hf.1, (heK.2.1).trans hf.2.1,
                          Nat.le_trans hf.2.2 heK.2.2⟩
                      · exact ⟨(heK.1).trans hf.1, (heK.2.1).trans hf.2.1,
                          Nat.le_trans hf.2.2 heK.2.2⟩
                    · exact ⟨hf.1, hf.2.1, hf.2.2⟩

/-- add_custom_title_slide evolves the generator the same way, and
always advances the slide counter by one. -/
theorem titleSlide_gen_shape (slides : List Slide) (g : Gen)
    (h s sp : String) :
    (((addCustomTitleSlide slides g h s sp).2).speaker_notes_txt = g.speaker_notes_txt
      ∧ ((addCustomTitleSlide slides g h s sp).2).notes_seen = g.notes_seen
      ∧ ((addCustomTitleSlide slides g h s sp).2).slide_count = g.slide_count + 1)
    ∨ (∃ k : Nat × String, k ∉ g.notes_seen ∧ k.2 ≠ "" ∧ pyStrip k.2 = k.2
        ∧ ((addCustomTitleSlide slides g h s sp).2).speaker_notes_txt
            = g.speaker_notes_txt ++ [k]
        ∧ ((addCustomTitleSlide slides g h s sp).2).notes_seen = k :: g.notes_seen
        ∧ ((addCustomTitleSlide slides g h s sp).2).slide_count = g.slide_count + 1) := by
  simp only [addCustomTitleSlide]
  split
  · split
    · rename_i hcond
      exact Or.inr ⟨_, hcond.1, hcond.2, pyStrip_idem sp, rfl, rfl, rfl⟩
    · exact Or.inl ⟨rfl, rfl, rfl⟩
  · exact Or.inl ⟨rfl, rfl, rfl⟩

theorem genExt_refl (g : Gen) : GenExt g g :=
  ⟨⟨[], by simp⟩, fun k hk => hk, Nat.le_refl _⟩

theorem genExt_trans {g1 g2 g3 : Gen} (h1 : GenExt g1 g2) (h2 : GenExt g2 g3) :
    GenExt g1 g3 := by
  obtain ⟨⟨t1, ht1⟩, hs1, hc1⟩ := h1
  obtain ⟨⟨t2, ht2⟩, hs2, hc2⟩ := h2
  exact ⟨⟨t1 ++ t2, by rw [ht2, ht1, List.append_assoc]⟩,
    fun k hk => hs2 k (hs1 k hk), Nat.le_trans hc1 hc2⟩

theorem genExt_bodyStep (st : PState) (e : ElemC) : GenExt st.gen (bodyStep st e).gen := by
  rcases bodyStep_gen_shape st e with ⟨ht, hs, hc⟩ | ⟨k, _, _, _, ht, hs, hc⟩
  · exact ⟨⟨[], by rw [ht, List.append_nil]⟩, fun j hj => by rw [hs]; exact hj, hc⟩
  · exact ⟨⟨[k], ht⟩, fun j hj => by rw [hs]; exact List.mem_cons_of_mem k hj, hc⟩

theorem genExt_fold (elems : List ElemC) :
    ∀ (st : PState), GenExt st.gen (processContentElements st elems).gen := by
  induction elems with
  | nil => intro st; exact genExt_refl st.gen
  | cons e rest ih =>
    intro st
    have h1 : GenExt st.gen (bodyStep st e).gen := genExt_bodyStep st e
    have h2 := ih (bodyStep st e)
    simp only [processContentElements, List.foldl_cons] at *
    exact genExt_trans h1 h2

theorem genExt_title (slides : List Slide) (g : Gen) (h s sp : String) :
    GenExt g (addCustomTitleSlide slides g h s sp).2
    ∧ g.slide_count < ((addCustomTitleSlide slides g h s sp).2).slide_count := by
  rcases titleSlide_gen_shape slides g h s sp with ⟨ht, hs, hc⟩ | ⟨k, _, _, _, ht, hs, hc⟩
  · exact ⟨⟨⟨[], by rw [ht, List.append_nil]⟩, fun j hj => by rw [hs]; exact hj,
      by rw [hc]; exact Nat.le_succ _⟩, by rw [hc]; exact Nat.lt_succ_self _⟩
  · exact ⟨⟨⟨[k], ht⟩, fun j hj => by rw [hs]; exact List.mem_cons_of_mem k hj,
      by rw [hc]; exact Nat.le_succ _⟩, by rw [hc]; exact Nat.lt_succ_self _⟩

theorem genExt_buildState (g0 : Gen) (root : Node) :
    GenExt g0 (buildState g0 root).gen
    ∧ g0.slide_count < (buildState g0 root).gen.slide_count := by
  have h1 := genExt_title [] g0
    (if (titleScan root).heading = "" then " " else (titleScan root).heading)
    (if (titleScan root).subheading = "" then " " else (titleScan root).subheading)
    (titleScan root).notes
  have h2 := genExt_fold (bodyElemsOf (titleScan root).removed root)
    { slides := (addCustomTitleSlide [] g0
        (if (titleScan root).heading = "" then " " else (titleScan root).heading)
        (if (titleScan root).subheading = "" then " " else (titleScan root).subheading)
        (titleScan root).notes).1,
      gen := (addCustomTitleSlide [] g0
        (if (titleScan root).heading = "" then " " else (titleScan root).heading)
        (if (titleScan root).subheading = "" then " " else (titleScan root).subheading)
        (titleScan root).notes).2,
      current := none, buffer := [] }
  exact ⟨genExt_trans h1.1 h2, Nat.lt_of_lt_of_le h1.2 h2.2.2⟩

theorem genExt_buildDoc (g0 : Gen) (root : Node) :
    GenExt g0 (buildDoc g0 root).2
    ∧ g0.slide_count < (buildDoc g0 root).2.slide_count := by
  have h := genExt_buildState g0 root
  simp only [buildDoc]
  split
  · constructor
    · refine genExt_trans h.1 ⟨⟨[], by simp [addFallbackSlide]⟩,
        fun j hj => by simp [addFallbackSlide]; exact hj, ?_⟩
      simp [addFallbackSlide]
    · calc g0.slide_count < (buildState g0 root).gen.slide_count := h.2
        _ ≤ (addFallbackSlide (buildState g0 root).slides (buildState g0 root).gen
              "No Content Found"
              "The canvas appears to be empty or could not be processed.").2.slide_count := by
            simp [addFallbackSlide]
  · exact h

theorem genExt_create (env : Env) (g0 : Gen) (root : Node) :
    GenExt g0 (createEnhancedPresentation env g0 root).gen
    ∧ g0.slide_count < (createEnhancedPresentation env g0 root).gen.slide_count := by
  have h := genExt_buildDoc g0 root
  cases env with
  | mk f =>
    cases f <;> exact h

/-- C10 counterexample.  Two successive builds on the same instance with
the same title notes: the key (1, "N") recorded in the first build is
indeed dropped from the transcript list in the second build — but the
note is still embedded into the second document's title slide (the
embedding at line 129 precedes the dedup check), contradicting the
claim that such a note is omitted from the second document's embedded
notes. -/
theorem c10_state_leak_counterexample :
    ((createEnhancedPresentation Env.noFault
        (createEnhancedPresentation Env.noFault Gen.init twoBuildRoot).gen
        twoBuildRoot).slides =
      [{ layout := 0, title := "A", subtitle := "B", body := [], tables := [],
         notes := some "N" }])
    ∧ ((createEnhancedPresentation Env.noFault
        (createEnhancedPresentation Env.noFault Gen.init twoBuildRoot).gen
        twoBuildRoot).gen.speaker_notes_txt = [(1, "N")])
    ∧ ((createEnhancedPresentation Env.noFault Gen.init twoBuildRoot).gen.notes_seen
        = [(1, "N")]) := by
  exact ⟨rfl, rfl, rfl⟩

/-- C10 amended.  notes_seen and speaker_notes_txt are never cleared:
across any call the transcript list of the instance only grows at the
end (so a second build's transcript file still carries every note of
the first build), the seen-set only grows, and the slide counter
strictly increases with every build (so body-note keys, which use the
counter, can never repeat across builds); a repeated title-slide key is
dropped from the transcript but the note is still embedded into the
title slide. -/

theorem c10_state_leak_amended (env : Env) (g : Gen) (root : Node) :
    (∃ t2, (createEnhancedPresentation env g root).gen.speaker_notes_txt
        = g.speaker_notes_txt ++ t2)
    ∧ (∀ k ∈ g.notes_seen, k ∈ (createEnhancedPresentation env g root).gen.notes_seen)
    ∧ g.slide_count < (createEnhancedPresentation env g root).gen.slide_count := by
  have h := genExt_create env g root
  exact ⟨h.1.1, h.1.2.1, h.2⟩

/-- C10 witness for the amended theorem, across the two concrete builds. -/
theorem c10_state_leak_amended_witness :
    ((1, "N") ∈ (createEnhancedPresentation Env.noFault Gen.init twoBuildRoot).gen.notes_seen
    ∧ (1, "N") ∈ (createEnhancedPresentation Env.noFault
        (createEnhancedPresentation Env.noFault Gen.init twoBuildRoot).gen
        twoBuildRoot).gen.notes_seen) := by
  have hmem : (1, "N") ∈
      (createEnhancedPresentation Env.noFault Gen.init twoBuildRoot).gen.notes_seen := by
    decide
  exact ⟨hmem,
    (c10_state_leak_amended Env.noFault
      (createEnhancedPresentation Env.noFault Gen.init twoBuildRoot).gen
      twoBuildRoot).2.1 (1, "N") hmem⟩

/-! The GoodGen invariant of a single build from a fresh instance. -/

theorem goodGen_init : GoodGen Gen.init := by
  refine ⟨List.nodup_nil, ?_, ?_⟩ <;> intro k hk <;> exact absurd hk (List.not_mem_nil k)

theorem goodGen_of_shape {g g2 : Gen}
    (hshape : (g2.speaker_notes_txt = g.speaker_notes_txt ∧ g2.notes_seen = g.notes_seen)
      ∨ ∃ k, k ∉ g.notes_seen ∧ k.2 ≠ "" ∧ pyStrip k.2 = k.2
          ∧ g2.speaker_notes_txt = g.speaker_notes_txt ++ [k]
          ∧ g2.notes_seen = k :: g.notes_seen)
    (h : GoodGen g) : GoodGen g2 := by
  rcases hshape with ⟨ht, hs⟩ | ⟨k, hk, hne, hstr, ht, hs⟩
  · refine ⟨?_, ?_, ?_⟩
    · rw [ht]; exact h.1
    · intro j hj; rw [hs]; rw [ht] at hj; exact h.2.1 j hj
    · intro j hj; rw [ht] at hj; exact h.2.2 j hj
  · refine ⟨?_, ?_, ?_⟩
    · rw [ht, List.nodup_append]
      refine ⟨h.1, List.nodup_singleton k, ?_⟩
      intro a ha hmem
      rw [List.mem_singleton] at hmem
      subst hmem
      exact hk (h.2.1 a ha)
    · intro j hj
      rw [ht] at hj
      rw [hs]
      rcases List.mem_append.mp hj with hj1 | hj1
      · exact List.mem_cons_of_mem k (h.2.1 j hj1)
      · rw [List.mem_singleton] at hj1
        subst hj1
        exact List.mem_cons_self j g.notes_seen
    · intro j hj
      rw [ht] at hj
      rcases List.mem_append.mp hj with hj1 | hj1
      · exact h.2.2 j hj1
      · rw [List.mem_singleton] at hj1
        subst hj1
        exact ⟨hne, hstr⟩

theorem goodGen_bodyStep (st : PState) (e : ElemC) (h : GoodGen st.gen) :
    GoodGen (bodyStep st e).gen := by
  apply goodGen_of_shape _ h
  rcases bodyStep_gen_shape st e with ⟨ht, hs, _⟩ | ⟨k, hk, hne, hstr, ht, hs, _⟩
  · exact Or.inl ⟨ht, hs⟩
  · exact Or.inr ⟨k, hk, hne, hstr, ht, hs⟩

theorem goodGen_fold (elems : List ElemC) :
    ∀ (st : PState), GoodGen st.gen → GoodGen (processContentElements st elems).gen := by
  induction elems with
  | nil => intro st h; exact h
  | cons e rest ih =>
    intro st h
    simp only [processContentElements, List.foldl_cons] at *
    exact ih (bodyStep st e) (goodGen_bodyStep st e h)

theorem goodGen_title (slides : List Slide) (g : Gen) (h s sp : String)
    (hg : GoodGen g) : GoodGen (addCustomTitleSlide slides g h s sp).2 := by
  apply goodGen_of_shape _ hg
  rcases titleSlide_gen_shape slides g h s sp with ⟨ht, hs, _⟩ | ⟨k, hk, hne, hstr, ht, hs, _⟩
  · exact Or.inl ⟨ht, hs⟩
  · exact Or.inr ⟨k, hk, hne, hstr, ht, hs⟩

theorem goodGen_buildDoc (g0 : Gen) (root : Node) (h : GoodGen g0) :
    GoodGen (buildDoc g0 root).2 := by
  have hb : GoodGen (buildState g0 root).gen := by
    apply goodGen_fold
    exact goodGen_title _ _ _ _ _ h
  simp only [buildDoc]
  split
  · exact goodGen_of_shape (Or.inl ⟨rfl, rfl⟩) hb
  · exact hb

theorem goodGen_create (env : Env) (g0 : Gen) (root : Node) (h : GoodGen g0) :
    GoodGen (createEnhancedPresentation env g0 root).gen := by
  have hb := goodGen_buildDoc g0 root h
  cases env with
  | mk f => cases f <;> exact hb

theorem cleanNotes_go (l : List (Nat × String)) :
    ∀ (acc seen : List (Nat × String)), l.Nodup →
      (∀ k ∈ l, k.2 ≠ "" ∧ pyStrip k.2 = k.2) →
      (∀ k ∈ l, k ∉ seen) →
      (l.foldl cleanStep (acc, seen)).1 = acc ++ l := by
  induction l with
  | nil => intro acc seen _ _ _; simp
  | cons kv rest ih =>
    intro acc seen hnd hprops hseen
    have hkv := hprops kv (List.mem_cons_self kv rest)
    have hstep : cleanStep (acc, seen) kv = (acc ++ [kv], kv :: seen) := by
      have hkey : (kv.1, pyStrip kv.2) = kv := by
        rw [hkv.2]
      rw [cleanStep]
      rw [if_pos]
      · rw [hkey]
      · rw [hkv.2]
        refine ⟨hkv.1, ?_⟩
        rw [Prod.mk.eta]
        exact hseen kv (List.mem_cons_self kv rest)
    rw [List.foldl_cons, hstep]
    have hknotin : kv ∉ rest := (List.nodup_cons.mp hnd).1
    rw [ih (acc ++ [kv]) (kv :: seen) (List.nodup_cons.mp hnd).2
      (fun k hk => hprops k (List.mem_cons_of_mem kv hk))
      (fun k hk => by
        rw [List.mem_cons]
        rintro (h1 | h1)
        · subst h1; exact hknotin hk
        · exact hseen k (List.mem_cons_of_mem kv hk) h1)]
    simp

theorem cleanNotes_eq (l : List (Nat × String)) (hnd : l.Nodup)
    (hprops : ∀ k ∈ l, k.2 ≠ "" ∧ pyStrip k.2 = k.2) : cleanNotes l = l := by
  rw [cleanNotes, cleanNotes_go l [] [] hnd hprops (fun k _ => List.not_mem_nil k)]
  rfl

/-- C3.  Within a document build from a fresh generator instance the
recorded (slide number, trimmed note) pairs form a true set: the
transcript list is duplicate free, the cleanup pass of
_save_speaker_notes_textfile writes it unchanged (each pair exactly
once), and a marker resolving to an already-seen pair leaves the whole
state untouched — dropped silently, not an error. -/
theorem c3_notes_dedup (env : Env) (root : Node) :
    ((createEnhancedPresentation env Gen.init root).gen.speaker_notes_txt.Nodup
      ∧ cleanNotes (createEnhancedPresentation env Gen.init root).gen.speaker_notes_txt
          = (createEnhancedPresentation env Gen.init root).gen.speaker_notes_txt)
    ∧ (∀ (st : PState) (e : ElemC) (i : Nat) (c n : String),
        st.current = some i →
        splitMarker (elemText e) = some (c, n) →
        (st.gen.slide_count, pyStrip n) ∈ st.gen.notes_seen →
        bodyStep st e = st) := by
  constructor
  · have hgood := goodGen_create env Gen.init root goodGen_init
    exact ⟨hgood.1, cleanNotes_eq _ hgood.1 hgood.2.2⟩
  · intro st e i c n hc hm hmem
    simp only [bodyStep, hm, hc]
    rw [if_neg]
    intro hcond
    exact hcond.2 hmem

/-- C3 witness: a marker whose (slide number, text) key is already in the
seen set is dropped without any state change. -/
theorem c3_notes_dedup_witness :
    st1W.current = some 0
    ∧ splitMarker (elemText e0W) = some ("x ", "y")
    ∧ (st1W.gen.slide_count, pyStrip "y") ∈ st1W.gen.notes_seen
    ∧ bodyStep st1W e0W = st1W := by
  refine ⟨rfl, by decide, by decide, ?_⟩
  exact (c3_notes_dedup Env.noFault emptyRoot).2 st1W e0W 0 "x " "y" rfl (by decide)
    (by decide)

theorem mem_cons_le_foldl_max (c0 a : Nat) (cs : List Nat) (h : a ∈ c0 :: cs) :
    a ≤ cs.foldl Nat.max c0 := by
  rcases List.mem_cons.mp h with h1 | h1
  · subst h1; exact foldl_max_ge_init cs a
  · exact foldl_max_ge_mem cs c0 a h1

/-- C4.  For every table element with at least one row containing at
least one cell, _add_table_to_slide builds a grid with one row per tr,
column count equal to the maximum number of cells over the rows that
have at least one cell, rows with fewer cells padded with trailing empty
cells, every cell text truncated to at most 200 characters, and no
exception escapes (some grid is returned); a table with zero rows, or
whose rows all have zero cells, is skipped without mutating the slide
(none: the early return, respectively the caught ValueError of max). -/
theorem c4_table_render (t : Node) :
    ((∃ r ∈ trRows t, rowCells r ≠ []) →
      ∃ g c, addTableToSlide t = some g
        ∧ g.length = (trRows t).length
        ∧ 1 ≤ c
        ∧ (∀ row ∈ g, row.length = c)
        ∧ (∀ r ∈ trRows t, (rowCells r).length ≤ c)
        ∧ (∃ r ∈ trRows t, rowCells r ≠ [] ∧ (rowCells r).length = c)
        ∧ (∀ row ∈ g, ∀ cell ∈ row, cell.length ≤ 200)
        ∧ (∀ i j, i < (trRows t).length → j < c →
            (rowCells ((trRows t).getD i (Node.text ""))).length ≤ j →
            ((g.getD i []).getD j "pad") = ""))
    ∧ ((trRows t = [] ∨ ∀ r ∈ trRows t, rowCells r = []) → addTableToSlide t = none) := by
  constructor
  · rintro ⟨r0, hr0, hcells⟩
    have hne : ¬ (trRows t).isEmpty = true := by
      cases hrows : trRows t with
      | nil => rw [hrows] at hr0; exact absurd hr0 (List.not_mem_nil r0)
      | cons a as => simp
    have hr0F : r0 ∈ (trRows t).filter (fun r => !(rowCells r).isEmpty) := by
      rw [List.mem_filter]
      refine ⟨hr0, ?_⟩
      cases hc : rowCells r0 with
      | nil => exact absurd hc hcells
      | cons a as => simp
    have hcountsne : ((trRows t).filter (fun r => !(rowCells r).isEmpty)).map
        (fun r => (rowCells r).length) ≠ [] := by
      intro hnil
      rw [List.map_eq_nil] at hnil
      rw [hnil] at hr0F
      exact absurd hr0F (List.not_mem_nil r0)
    cases hc2 : ((trRows t).filter (fun r => !(rowCells r).isEmpty)).map
        (fun r => (rowCells r).length) with
    | nil => exact absurd hc2 hcountsne
    | cons c0 cs =>
      have hcount_pos : ∀ a ∈ c0 :: cs, 1 ≤ a := by
        intro a ha
        rw [← hc2] at ha
        rw [List.mem_map] at ha
        obtain ⟨r, hrF, hlen⟩ := ha
        rw [List.mem_filter] at hrF
        have : rowCells r ≠ [] := by
          intro hnil
          rw [hnil] at hrF
          simp at hrF
        subst hlen
        cases hcr : rowCells r with
        | nil => exact absurd hcr this
        | cons a as => simp
      have hmax1 : 1 ≤ cs.foldl Nat.max c0 :=
        Nat.le_trans (hcount_pos c0 (List.mem_cons_self c0 cs)) (foldl_max_ge_init cs c0)
      have hnotz : ¬ (cs.foldl Nat.max c0 = 0 ∨ (trRows t).length = 0) := by
        rintro (h1 | h1)
        · omega
        · rw [List.length_eq_zero] at h1
          rw [h1] at hr0
          exact absurd hr0 (List.not_mem_nil r0)
      have hsome : addTableToSlide t =
          some ((trRows t).map (fun r =>
            (List.range (cs.foldl Nat.max c0)).map (fun j => tableCellText (rowCells r) j))) := by
        rw [addTableToSlide]
        rw [if_neg hne, hc2]
        exact if_neg hnotz
      refine ⟨_, cs.foldl Nat.max c0, hsome, List.length_map _ _, hmax1, ?_, ?_, ?_, ?_, ?_⟩
      · intro row hrow
        rw [List.mem_map] at hrow
        obtain ⟨r, _, hr⟩ := hrow
        subst hr
        rw [List.length_map, List.length_range]
      · intro r hr
        by_cases hcr : rowCells r = []
        · rw [hcr]
          exact Nat.le_trans (Nat.zero_le 1) hmax1
        · apply mem_cons_le_foldl_max
          rw [← hc2, List.mem_map]
          refine ⟨r, ?_, rfl⟩
          rw [List.mem_filter]
          refine ⟨hr, ?_⟩
          cases hx : rowCells r with
          | nil => exact absurd hx hcr
          | cons a as => simp
      · have hmem : cs.foldl Nat.max c0 ∈ c0 :: cs := by
          rcases foldl_max_mem cs c0 with h1 | h1
          · rw [h1]; exact List.mem_cons_self c0 cs
          · exact List.mem_cons_of_mem c0 h1
        rw [← hc2, List.mem_map] at hmem
        obtain ⟨r, hrF, hlen⟩ := hmem
        rw [List.mem_filter] at hrF
        refine ⟨r, hrF.1, ?_, hlen⟩
        intro hnil
        rw [hnil] at hrF
        simp at hrF
      · intro row hrow cell hcell
        rw [List.mem_map] at hrow
        obtain ⟨r, _, hr⟩ := hrow
        subst hr
        rw [List.mem_map] at hcell
        obtain ⟨j, _, hj⟩ := hcell
        subst hj
        exact pyTrunc_length_le _ 200
      · intro i j hi hj hpad
        rw [getD_map_lt _ (Node.text "") [] _ i hi]
        rw [getD_map_lt _ 0 "pad" _ j (by rw [List.length_range]; exact hj)]
        rw [getD_range_lt _ _ _ hj]
        have hnone : (rowCells ((trRows t).getD i (Node.text ""))).get? j = none := by
          rw [List.get?_eq_none]
          exact hpad
        rw [tableCellText, hnone]
        rfl
  · intro h
    rcases h with h1 | h1
    · rw [addTableToSlide, if_pos]
      rw [h1]
      rfl
    · by_cases hrows : trRows t = []
      · rw [addTableToSlide, if_pos]
        rw [hrows]
        rfl
      · have hfilter : (trRows t).filter (fun r => !(rowCells r).isEmpty) = [] := by
          rw [List.filter_eq_nil]
          intro r hr
          rw [h1 r hr]
          simp
        have hne2 : ¬ (trRows t).isEmpty = true := by
          cases hx : trRows t with
          | nil => exact absurd hx hrows
          | cons a as => simp
        rw [addTableToSlide, if_neg hne2, hfilter]
        rfl

/-- C4 witness: the 3-column table with one short row. -/
theorem c4_table_render_witness :
    (∃ r ∈ trRows tableW, rowCells r ≠ [])
    ∧ ∃ g c, addTableToSlide tableW = some g
        ∧ g.length = (trRows tableW).length
        ∧ 1 ≤ c
        ∧ (∀ row ∈ g, row.length = c)
        ∧ (∀ r ∈ trRows tableW, (rowCells r).length ≤ c)
        ∧ (∃ r ∈ trRows tableW, rowCells r ≠ [] ∧ (rowCells r).length = c)
        ∧ (∀ row ∈ g, ∀ cell ∈ row, cell.length ≤ 200)
        ∧ (∀ i j, i < (trRows tableW).length → j < c →
            (rowCells ((trRows tableW).getD i (Node.text ""))).length ≤ j →
            ((g.getD i []).getD j "pad") = "") := by
  refine ⟨?_, (c4_table_render tableW).1 ?_⟩ <;>
    exact ⟨(trRows tableW).headD (Node.text ""), by decide, by decide⟩

/-! The list renderer refines the claim-side depth-first walk. -/

theorem liOwnText_strip (cs : NodeList) : pyStrip (liOwnText cs) = liOwnText cs := by
  rw [liOwnText]
  exact pyStrip_idem _

theorem isSingleEmpty_append (qs sp : List Para)
    (h1 : isSingleEmpty qs = false)
    (h2 : ∀ p ∈ sp, ¬ pyStrip p.text = "") :
    isSingleEmpty (qs ++ sp) = false := by
  match qs, sp with
  | [], [] => rfl
  | [], [p] =>
    have hp := h2 p (List.mem_singleton_self p)
    simp only [List.nil_append, isSingleEmpty]
    rw [beq_eq_false_iff_ne]
    exact hp
  | [], p :: q :: rest => rfl
  | [a], [] => simpa using h1
  | [a], p :: rest => rfl
  | a :: b :: t, sp => rfl

theorem dropPlaceholder_eq (ps : List Para) (h : isSingleEmpty ps = false) :
    dropPlaceholder ps = ps := by
  match ps with
  | [] => rfl
  | [p] =>
    simp only [isSingleEmpty] at h
    rw [beq_eq_false_iff_ne] at h
    simp only [dropPlaceholder]
    rw [if_neg h]
  | a :: b :: t => rfl

theorem isSingleEmpty_dropPlaceholder (ps : List Para) :
    isSingleEmpty (dropPlaceholder ps) = false := by
  match ps with
  | [] => rfl
  | [p] =>
    simp only [dropPlaceholder]
    by_cases h : pyStrip p.text = ""
    · rw [if_pos h]; rfl
    · rw [if_neg h]
      simp only [isSingleEmpty]
      rw [beq_eq_false_iff_ne]
      exact h
  | a :: b :: t => rfl

theorem addListPara_eq (ps : List Para) (t : String) (lvl : Nat)
    (h : isSingleEmpty ps = false) :
    addListPara ps t lvl = ps ++ [listPara t lvl] := by
  match ps with
  | [] => rfl
  | [p] =>
    simp only [isSingleEmpty] at h
    rw [beq_eq_false_iff_ne] at h
    simp only [addListPara]
    rw [if_neg h]
  | a :: b :: t2 => rfl

mutual

theorem specItems_text : ∀ (cs : NodeList) (d : Nat) (p : Para),
    p ∈ specItems cs d → ¬ pyStrip p.text = ""
  | .nil, d, p, hp => by simp [specItems] at hp
  | .cons c rest, d, p, hp => by
    simp only [specItems] at hp
    rcases List.mem_append.mp hp with h | h
    · exact specItem_text c d p h
    · exact specItems_text rest d p h

theorem specItem_text : ∀ (c : Node) (d : Nat) (p : Para),
    p ∈ specItem c d → ¬ pyStrip p.text = ""
  | .text s, d, p, hp => by simp [specItem] at hp
  | .tag nm cls liCs, d, p, hp => by
    simp only [specItem] at hp
    by_cases hnm : nm = "li"
    · rw [if_pos hnm] at hp
      rcases List.mem_append.mp hp with h | h
      · by_cases ht : liOwnText liCs ≠ ""
        · rw [if_pos ht] at h
          rw [List.mem_singleton] at h
          subst h
          show ¬ pyStrip (liOwnText liCs) = ""
          rw [liOwnText_strip]
          exact ht
        · rw [if_neg ht] at h
          exact absurd h (List.not_mem_nil p)
      · exact specNested_text liCs d p h
    · rw [if_neg hnm] at hp
      exact absurd hp (List.not_mem_nil p)

theorem specNested_text : ∀ (cs : NodeList) (d : Nat) (p : Para),
    p ∈ specNested cs d → ¬ pyStrip p.text = ""
  | .nil, d, p, hp => by simp [specNested] at hp
  | .cons c rest, d, p, hp => by
    simp only [specNested] at hp
    rcases List.mem_append.mp hp with h | h
    · exact specNestedOne_text c d p h
    · exact specNested_text rest d p h

theorem specNestedOne_text : ∀ (c : Node) (d : Nat) (p : Para),
    p ∈ specNestedOne c d → ¬ pyStrip p.text = ""
  | .text s, d, p, hp => by simp [specNestedOne] at hp
  | .tag nm cls cs2, d, p, hp => by
    simp only [specNestedOne] at hp
    by_cases hul : nm = "ul" ∨ nm = "ol"
    · rw [if_pos hul] at hp
      exact specItems_text cs2 (d + 1) p hp
    · rw [if_neg hul] at hp
      exact absurd hp (List.not_mem_nil p)

end

mutual

theorem specItems_level : ∀ (cs : NodeList) (d : Nat) (p : Para),
    p ∈ specItems cs d → p.level ≤ 4
  | .nil, d, p, hp => by simp [specItems] at hp
  | .cons c rest, d, p, hp => by
    simp only [specItems] at hp
    rcases List.mem_append.mp hp with h | h
    · exact specItem_level c d p h
    · exact specItems_level rest d p h

theorem specItem_level : ∀ (c : Node) (d : Nat) (p : Para),
    p ∈ specItem c d → p.level ≤ 4
  | .text s, d, p, hp => by simp [specItem] at hp
  | .tag nm cls liCs, d, p, hp => by
    simp only [specItem] at hp
    by_cases hnm : nm = "li"
    · rw [if_pos hnm] at hp
      rcases List.mem_append.mp hp with h | h
      · by_cases ht : liOwnText liCs ≠ ""
        · rw [if_pos ht] at h
          rw [List.mem_singleton] at h
          subst h
          exact Nat.min_le_right d 4
        · rw [if_neg ht] at h
          exact absurd h (List.not_mem_nil p)
      · exact specNested_level liCs d p h
    · rw [if_neg hnm] at hp
      exact absurd hp (List.not_mem_nil p)

theorem specNested_level : ∀ (cs : NodeList) (d : Nat) (p : Para),
    p ∈ specNested cs d → p.level ≤ 4
  | .nil, d, p, hp => by simp [specNested] at hp
  | .cons c rest, d, p, hp => by
    simp only [specNested] at hp
    rcases List.mem_append.mp hp with h | h
    · exact specNestedOne_level c d p h
    · exact specNested_level rest d p h

theorem specNestedOne_level : ∀ (c : Node) (d : Nat) (p : Para),
    p ∈ specNestedOne c d → p.level ≤ 4
  | .text s, d, p, hp => by simp [specNestedOne] at hp
  | .tag nm cls cs2, d, p, hp => by
    simp only [specNestedOne] at hp
    by_cases hul : nm = "ul" ∨ nm = "ol"
    · rw [if_pos hul] at hp
      exact specItems_level cs2 (d + 1) p hp
    · rw [if_neg hul] at hp
      exact absurd hp (List.not_mem_nil p)

end

mutual

theorem procItems_spec : ∀ (cs : NodeList) (lvl : Nat) (qs : List Para),
    isSingleEmpty qs = false → procItems cs lvl qs = qs ++ specItems cs lvl
  | .nil, lvl, qs, h => by simp [procItems, specItems]
  | .cons c rest, lvl, qs, h => by
    simp only [procItems, specItems]
    rw [procItem_spec c lvl qs h]
    rw [procItems_spec rest lvl (qs ++ specItem c lvl)
      (isSingleEmpty_append qs (specItem c lvl) h (specItem_text c lvl))]
    rw [List.append_assoc]

theorem procItem_spec : ∀ (c : Node) (lvl : Nat) (qs : List Para),
    isSingleEmpty qs = false → procItem c lvl qs = qs ++ specItem c lvl
  | .text s, lvl, qs, h => by simp [procItem, specItem]
  | .tag nm cls liCs, lvl, qs, h => by
    simp only [procItem, specItem]
    by_cases hnm : nm = "li"
    · rw [if_pos hnm, if_pos hnm]
      by_cases ht : liOwnText liCs ≠ ""
      · rw [if_pos ht, if_pos ht]
        rw [addListPara_eq qs (liOwnText liCs) lvl h]
        rw [procNested_spec liCs lvl (qs ++ [listPara (liOwnText liCs) lvl])
          (isSingleEmpty_append qs [listPara (liOwnText liCs) lvl] h
            (fun p hp => by
              rw [List.mem_singleton] at hp
              subst hp
              show ¬ pyStrip (liOwnText liCs) = ""
              rw [liOwnText_strip]
              exact ht))]
        rw [List.append_assoc]
      · rw [if_neg ht, if_neg ht]
        rw [procNested_spec liCs lvl qs h]
        simp
    · rw [if_neg hnm, if_neg hnm]
      simp

theorem procNested_spec : ∀ (cs : NodeList) (lvl : Nat) (qs : List Para),
    isSingleEmpty qs = false → procNested cs lvl qs = qs ++ specNested cs lvl
  | .nil, lvl, qs, h => by simp [procNested, specNested]
  | .cons c rest, lvl, qs, h => by
    simp only [procNested, specNested]
    rw [procNestedOne_spec c lvl qs h]
    rw [procNested_spec rest lvl (qs ++ specNestedOne c lvl)
      (isSingleEmpty_append qs (specNestedOne c lvl) h (specNestedOne_text c lvl))]
    rw [List.append_assoc]

theorem procNestedOne_spec : ∀ (c : Node) (lvl : Nat) (qs : List Para),
    isSingleEmpty qs = false → procNestedOne c lvl qs = qs ++ specNestedOne c lvl
  | .text s, lvl, qs, h => by simp [procNestedOne, specNestedOne]
  | .tag nm cls cs2, lvl, qs, h => by
    simp only [procNestedOne, specNestedOne]
    by_cases hul : nm = "ul" ∨ nm = "ol"
    · rw [if_pos hul, if_pos hul]
      rw [dropPlaceholder_eq qs h]
      exact procItems_spec cs2 (lvl + 1) qs h
    · rw [if_neg hul, if_neg hul]
      simp

end

/-- C5.  _process_list_recursive is exactly the claim-side depth-first
walk: on any list element it removes the single empty placeholder
paragraph and then appends, in order, one paragraph per list item with
nonempty own text at indentation level min(depth, 4) — an item with
empty own text contributes no paragraph while its nested sub-lists are
still walked at depth + 1 — and every rendered paragraph has level at
most 4, however deep the nesting. -/
theorem c5_list_rendering (nm : String) (cls : List String) (cs : NodeList)
    (lvl : Nat) (ps : List Para) :
    procList (.tag nm cls cs) lvl ps
      = dropPlaceholder ps ++ specListRender (.tag nm cls cs) lvl
    ∧ ∀ p ∈ specListRender (.tag nm cls cs) lvl, p.level ≤ 4 := by
  constructor
  · simp only [procList, specListRender]
    exact procItems_spec cs lvl (dropPlaceholder ps) (isSingleEmpty_dropPlaceholder ps)
  · intro p hp
    simp only [specListRender] at hp
    exact specItems_level cs lvl p hp

/-- C5 witness: the six-levels-deep list renders its deepest item at
level 4, and the refinement equation holds at the fresh placeholder
frame. -/
theorem c5_list_rendering_witness :
    (procList (.tag "ul" [] deepKids) 0 [emptyPara]
      = dropPlaceholder [emptyPara] ++ specListRender (.tag "ul" [] deepKids) 0)
    ∧ listPara "f" 5 ∈ specListRender (.tag "ul" [] deepKids) 0
    ∧ (listPara "f" 5).level ≤ 4 :=
  ⟨(c5_list_rendering "ul" [] deepKids 0 [emptyPara]).1,
   by decide,
   (c5_list_rendering "ul" [] deepKids 0 [emptyPara]).2 (listPara "f" 5) (by decide)⟩

end PptGen
